import Mathlib

/-!
Verification development for arpping (`src/index.js`)

The JavaScript module is embedded shallowly.

* JavaScript strings are lists of characters (`JSString`); the string built-ins the
  module calls (`indexOf`, `lastIndexOf`, `substr`, `slice`, `split`, `trim`,
  `replace(/ +/g, " ")`, `JSON.stringify`) are executable functions on them.
* The module-level mutable state (`arpping.myIP`, `arpping.timeout`,
  `arpping.includeEndpoints`, the `retry` variable) lives in `World`, together with an
  event trace that records what the code does to the outside (spawned commands,
  callback invocations, uncaught exceptions).
* Asynchronous functions are written in continuation-passing style, exactly as in the
  source: a callback is a function from its argument list to a world transformer.
* The outcomes of the spawned OS commands and the order in which concurrent commands
  complete are not decided by the program; they are supplied by an `Env`.
-/

namespace Arpping

/-! ## JavaScript strings -/

/-- A JavaScript string, as its sequence of characters. -/
abbrev JSString := List Char

/-- Decimal rendering of a non-negative integer, as produced by string concatenation
the empty string followed by `n`. -/
def numToString (n : Nat) : JSString := Nat.toDigits 10 n

/-- Worker of `indexOf`: first position, counted from `i`, at which `pat` occurs. -/
def indexOfFrom (pat : JSString) : JSString → Nat → Int
  | [], i => if pat.isPrefixOf [] then (i : Int) else -1
  | c :: cs, i => if pat.isPrefixOf (c :: cs) then (i : Int) else indexOfFrom pat cs (i + 1)

/-- Model of `s.indexOf(pat)`: position of the first occurrence of `pat` in `s`, or `-1`. -/
def indexOf (s pat : JSString) : Int := indexOfFrom pat s 0

/-- Worker of `lastIndexOf`: `acc` is the last occurrence seen so far. -/
def lastIndexOfFrom (pat : JSString) : JSString → Nat → Int → Int
  | [], i, acc => if pat.isPrefixOf [] then (i : Int) else acc
  | c :: cs, i, acc =>
      lastIndexOfFrom pat cs (i + 1) (if pat.isPrefixOf (c :: cs) then (i : Int) else acc)

/-- Model of `s.lastIndexOf(pat)`: position of the last occurrence of `pat` in `s`, or `-1`. -/
def lastIndexOf (s pat : JSString) : Int := lastIndexOfFrom pat s 0 (-1)

/-- Model of `s.substr(start, len)`: a negative `start` counts from the end, a non-positive `len`
gives the empty string. -/
def substr (s : JSString) (start len : Int) : JSString :=
  let st : Nat := if start < 0 then (start + s.length).toNat else start.toNat
  (s.drop st).take len.toNat

/-- Model of `s.slice(start, stop)`: negative positions count from the end, positions are clamped
to the string, and an empty interval gives the empty string. -/
def slice (s : JSString) (start : Int) (stop : Option Int) : JSString :=
  let n : Int := s.length
  let clamp : Int → Nat := fun k => if k < 0 then (n + k).toNat else (min k n).toNat
  let a := clamp start
  let b := match stop with
    | none => s.length
    | some e => clamp e
  (s.take b).drop a

/-- Worker of `splitOn`: `cur` holds the characters of the current piece, reversed. -/
def splitOnAux (sep : JSString) : Nat → JSString → JSString → List JSString
  | 0, _, cur => [cur.reverse]
  | _ + 1, [], cur => [cur.reverse]
  | fuel + 1, c :: cs, cur =>
      if sep.isPrefixOf (c :: cs) then
        cur.reverse :: splitOnAux sep fuel ((c :: cs).drop sep.length) []
      else splitOnAux sep fuel cs (c :: cur)

/-- Model of `s.split(sep)` for a non-empty separator string. -/
def splitOn (s sep : JSString) : List JSString := splitOnAux sep (s.length + 1) s []

/-- Worker of `collapseSpaces`: `inRun` tells that the previous character was a space. -/
def collapseSpacesAux : Bool → JSString → JSString
  | _, [] => []
  | inRun, c :: cs =>
    if c = ' ' then
      if inRun then collapseSpacesAux true cs else ' ' :: collapseSpacesAux true cs
    else c :: collapseSpacesAux false cs

/-- Model of `s.replace(/ +/g, " ")`: every maximal run of spaces becomes one space. -/
def collapseSpaces (s : JSString) : JSString := collapseSpacesAux false s

/-- White space and line terminators removed by `trim` (ECMAScript WhiteSpace and
LineTerminator). -/
def isJSWhitespace (c : Char) : Bool :=
  c.toNat ∈ [0x09, 0x0A, 0x0B, 0x0C, 0x0D, 0x20, 0xA0, 0x1680, 0x2028, 0x2029, 0x202F,
             0x205F, 0x3000, 0xFEFF] || (0x2000 ≤ c.toNat && c.toNat ≤ 0x200A)

/-- Model of `s.trim()`. -/
def trim (s : JSString) : JSString :=
  ((s.dropWhile isJSWhitespace).reverse.dropWhile isJSWhitespace).reverse

/-! ## Values, errors and events -/

/-- Operating systems the module accepts when it is loaded (`os.type()`); any other
value makes the module throw at load time, before any function exists. -/
inductive OsType
  | Linux
  | WindowsNT
  | Darwin
  deriving DecidableEq, Repr

/-- The first argument of the search functions: a string, an array of strings, or any
other value. -/
inductive SearchInput
  | str (s : JSString)
  | arr (l : List JSString)
  | other
  deriving DecidableEq, Repr

/-- A value substituted into a template literal. Its text in the message is whatever
JavaScript renders for the value; the rendering is not computed here. -/
inductive TemplateValue
  | number (t : Int)
  | input (v : SearchInput)
  deriving DecidableEq, Repr

/-- JavaScript error objects that occur in the module. -/
inductive JSError
  /-- The error object handed to an `exec` callback when the command failed. -/
  | execError (code : Nat)
  /-- An object made by `new Error(msg)`. -/
  | error (msg : String)
  /-- An object made by `new Error` of a template literal: the message is `before`,
  then the text of `value`, then `after`. -/
  | template (before : String) (value : TemplateValue) (after : String)
  /-- A `TypeError` raised by the runtime. -/
  | typeError (msg : String)
  /-- A `ReferenceError` raised by the runtime. -/
  | referenceError (msg : String)
  deriving DecidableEq, Repr

/-- A host object built by `arpDevices`: `mac` is `undefined` when the command output has
too few fields, `type` is set only when the vendor lookup knows the address, and
`isYourDevice` is set only for the machine itself. -/
structure Host where
  ip : JSString
  mac : Option JSString
  type : Option JSString := none
  isYourDevice : Bool := false
  deriving DecidableEq, Repr

/-- The JavaScript values that are passed to callbacks. -/
inductive JSVal
  | undefined
  | null
  | err (e : JSError)
  | info (ip : JSString) (mac : Option JSString)
  | strs (l : List JSString)
  | hosts (l : List Host)
  deriving DecidableEq, Repr

/-- What the module does to the outside, in the order in which it happens. -/
inductive Event
  /-- `arpping.discover` was entered with this reference address. -/
  | discover (refIP : Option JSString)
  /-- `arpping.findMyInfo` was entered. -/
  | findMyInfo
  /-- `exec(cmd, ...)` spawned a command. -/
  | exec (cmd : JSString)
  /-- `console.log(err)`. -/
  | log (e : JSError)
  /-- The callback given by the caller was invoked with these arguments. -/
  | callback (args : List JSVal)
  /-- An exception left an `exec` callback uncaught. -/
  | uncaught (e : JSError)
  deriving DecidableEq, Repr

/-- The mutable state of the module. -/
structure World where
  /-- `arpping.myIP`, `null` until `findMyInfo` succeeds. -/
  myIP : Option JSString := none
  /-- `arpping.timeout`. -/
  timeout : Int := 10
  /-- `arpping.includeEndpoints`. -/
  includeEndpoints : Bool := false
  /-- The module variable `retry`. -/
  retry : Bool := false
  /-- How many times `ifconfig` has been spawned. -/
  ifconfigRuns : Nat := 0
  /-- Events so far, oldest first. -/
  trace : List Event := []
  /-- An uncaught exception ended the process. -/
  crashed : Bool := false
  /-- The model ran out of fuel (the code was still running). -/
  outOfFuel : Bool := false
  deriving DecidableEq, Repr

/-- Append an event to the trace. -/
def World.emit (w : World) (e : Event) : World := { w with trace := w.trace ++ [e] }

/-- An exception escapes an `exec` callback: nothing catches it. -/
def World.throwUncaught (w : World) (e : JSError) : World :=
  { w with trace := w.trace ++ [Event.uncaught e], crashed := true }

/-- A JavaScript callback: it receives its arguments and acts on the world. -/
abbrev Callback := List JSVal → World → World

/-- The callback of a caller who only observes: every invocation is recorded. -/
def record : Callback := fun args w => w.emit (Event.callback args)

/-! ## Range builder -/

/-- JavaScript truthiness of a string value that may be absent. -/
def truthyStr : Option JSString → Bool
  | some (_ :: _) => true
  | _ => false

/-- Model of `getFullRange(ip)` (index.js 19-25). `ip || arpping.myIP` picks the cached address
when `ip` is absent or empty; calling `substr` on `null` raises a `TypeError`. -/
def getFullRange (w : World) (ip : Option JSString) : Except JSError (List JSString) :=
  let ip' : Option JSString := if truthyStr ip then ip else w.myIP
  match ip' with
  | none => .error (JSError.typeError "Cannot read property substr of null")
  | some s =>
      let ipStart := substr s 0 (lastIndexOf s ['.'] + 1)
      .ok (if w.includeEndpoints then
             (List.range 255).map (fun i => ipStart ++ numToString (i + 1))
           else
             (List.range 253).map (fun i => ipStart ++ numToString (i + 2)))

/-! ## Engine construction -/

/-- The `options` object of `module.exports`, for integer timeouts: `timeout` is `none`
when the property is absent. -/
structure Options where
  timeout : Option Int := none
  includeEndpoints : Bool := false
  deriving DecidableEq, Repr

/-- Model of `module.exports(options)` (index.js 191-200). `if (options.timeout)` is false for an
absent timeout and for `0`. For a non-zero integer `t` in range, `parseInt(t)` is `t`
itself and is truthy, so `toFixed` is never reached. A `throw` is the `error` result. -/
def moduleExports (w : World) (options : Options) : Except JSError World :=
  let step : Except JSError World :=
    match options.timeout with
    | none => .ok w
    | some t =>
        if t ≠ 0 then
          if t < 1 ∨ t > 60 then
            .error (JSError.template "Invalid timeout: " (TemplateValue.number t)
              ". Please choose a timeout between 1 and 60s")
          else .ok { w with timeout := t }
        else .ok w
  match step with
  | .error e => .error e
  | .ok w1 => .ok (if options.includeEndpoints then { w1 with includeEndpoints := true } else w1)

/-! ## The environment -/

/-- What an `exec` callback receives: the error object (`null` on success) and the text
the command wrote. -/
structure ExecResult where
  err : Option JSError := none
  stdout : JSString := []
  deriving DecidableEq, Repr

/-- Everything the program does not decide itself. -/
structure Env where
  /-- `os.type()`. -/
  osType : OsType
  /-- Result of the `k`-th run of `ifconfig` (counted from 0). -/
  ifconfig : Nat → ExecResult
  /-- Result of the probe spawned for position `i` of the pinged range. -/
  ping : Nat → ExecResult
  /-- Result of the query spawned for position `i` of the range given to `arpDevices`. -/
  arp : Nat → ExecResult
  /-- Order in which `n` concurrent probes complete (positions of the range). -/
  pingOrder : Nat → List Nat
  /-- Order in which `n` concurrent ARP queries complete. -/
  arpOrder : Nat → List Nat
  /-- The vendor lookup of `macLookup.js`, which is not part of the sources at hand. -/
  macLookup : Option JSString → Option JSString

/-- The `flag` chosen at load time (index.js 11-12). -/
def flag : OsType → JSString
  | .Linux => "-w".data
  | .WindowsNT => "-w".data
  | .Darwin => "-t".data

/-- Decimal rendering of an integer. -/
def intToString (z : Int) : JSString :=
  if z < 0 then '-' :: numToString z.natAbs else numToString z.toNat

/-! ## Local identity -/

/-- Model of `arpping.findMyInfo(callback)` (index.js 89-111). The body of the `exec` callback
runs with the result the environment gives for this run of `ifconfig`. On an operating
system other than Linux the callback reads the undeclared variable `en0` (line 103),
which raises a `ReferenceError` whenever `ifconfig` itself succeeded. -/
def findMyInfo (env : Env) (callback : Callback) (w : World) : World :=
  let r := env.ifconfig w.ifconfigRuns
  let w := { (w.emit Event.findMyInfo).emit (Event.exec "ifconfig".data) with
             ifconfigRuns := w.ifconfigRuns + 1 }
  match r.err with
  | some e => callback [JSVal.err e] (w.emit (Event.log e))
  | none =>
    match env.osType with
    | .Linux =>
      if indexOf r.stdout "wlan0".data = -1 then
        callback [JSVal.err (JSError.error "No wifi connection")] w
      else
        match (splitOn r.stdout "wlan0".data)[1]? with
        | none => w.throwUncaught (JSError.typeError "Cannot read property slice of undefined")
        | some output =>
          let ip := trim (slice output (indexOf output "inet ".data + 5)
                            (some (indexOf output " netmask".data)))
          match (splitOn (slice output (indexOf output "ether ".data) none) "\n".data)[0]? with
          | none => w.throwUncaught (JSError.typeError "Cannot read property split of undefined")
          | some line =>
            let mac := (splitOn line " ".data)[1]?
            callback [JSVal.null, JSVal.info ip mac] { w with myIP := some ip }
    | _ => w.throwUncaught (JSError.referenceError "en0 is not defined")

/-! ## Probe engine -/

/-- The test of index.js 47: the probe errored or its output reports total loss. -/
def pingMissed (r : ExecResult) : Bool :=
  r.err.isSome || decide (indexOf r.stdout "100% packet loss".data > -1)

/-- The command line of one probe: `args.join(" ")` with `args[3] = ip`. -/
def pingCommand (os : OsType) (timeout : Int) (ip : JSString) : JSString :=
  "ping".data ++ ' ' :: flag os ++ ' ' :: intToString timeout ++ ' ' :: ip

/-- The `exec` callbacks of `pingDevices` (index.js 45-51), run in the order in which
the probes complete. `found`, `missing` and `checked` are the variables of the
enclosing call. -/
def pingLoop (env : Env) (range : List JSString) (callback : Callback) :
    List Nat → List JSString → List JSString → Nat → World → World
  | [], _, _, _, w => w
  | i :: rest, found, missing, checked, w =>
    if w.crashed then w else
    match range[i]? with
    | none => pingLoop env range callback rest found missing checked w
    | some ip =>
      let checked := checked + 1
      let missing1 := if pingMissed (env.ping i) then missing ++ [ip] else missing
      let found1 := if pingMissed (env.ping i) then found else found ++ [ip]
      let w1 := if checked = range.length then
                  callback [JSVal.null, JSVal.strs found1, JSVal.strs missing1] w
                else w
      pingLoop env range callback rest found1 missing1 checked w1

/-- The `forEach` of index.js 43-52 spawns one command per address, in list order. -/
def spawnPings (os : OsType) (range : List JSString) (w : World) : World :=
  range.foldl (fun w ip => w.emit (Event.exec (pingCommand os w.timeout ip))) w

/-- Model of `pingDevices(range, callback)` (index.js 32-53). `range` is `none` when the argument
is not an array. The recursion through `findMyInfo` consumes fuel. -/
def pingDevices (env : Env) : Nat → Option (List JSString) → Callback → World → World
  | fuel, range, callback, w =>
    let isRange : Bool := match range with
      | some (_ :: _) => true
      | _ => false
    if isRange then
      let r := range.getD []
      pingLoop env r callback (env.pingOrder r.length) [] [] 0 (spawnPings env.osType r w)
    else if !truthyStr w.myIP then
      match fuel with
      | 0 => { w with outOfFuel := true }
      | fuel + 1 => findMyInfo env (fun _ => pingDevices env fuel range callback) w
    else
      match getFullRange w none with
      | .error e => w.throwUncaught e
      | .ok r =>
        pingLoop env r callback (env.pingOrder r.length) [] [] 0 (spawnPings env.osType r w)

/-! ## Resolution engine -/

/-- The MAC token read from the output of `arp` (index.js 75): `none` is the
`TypeError` raised on Linux when the output has no second line; `some none` is the value
`undefined` of an index past the last field. -/
def parseMac (os : OsType) (stdout : JSString) : Option (Option JSString) :=
  match os with
  | .Linux =>
    match (splitOn stdout "\n".data)[1]? with
    | none => none
    | some line => some ((splitOn (collapseSpaces line) " ".data)[2]?)
  | _ => some ((splitOn stdout " ".data)[3]?)

/-- The test of index.js 71: the query errored or reports that there is no entry. -/
def arpMissed (r : ExecResult) : Bool :=
  r.err.isSome || decide (indexOf r.stdout "no entry".data > -1)

/-- The host object built at index.js 73-78. -/
def mkHost (env : Env) (myIP : Option JSString) (ip : JSString) (mac : Option JSString) :
    Host :=
  let known := env.macLookup mac
  { ip := ip
    mac := mac
    type := if truthyStr known then known else none
    isYourDevice := decide (myIP = some ip) }

/-- The `exec` callbacks of `arpDevices` (index.js 69-83), in completion order. -/
def arpLoop (env : Env) (range : List JSString) (callback : Callback) :
    List Nat → List Host → List JSString → Nat → World → World
  | [], _, _, _, w => w
  | i :: rest, hosts, missing, checked, w =>
    if w.crashed then w else
    match range[i]? with
    | none => arpLoop env range callback rest hosts missing checked w
    | some ip =>
      let checked := checked + 1
      if arpMissed (env.arp i) then
        let missing1 := missing ++ [ip]
        let w1 := if checked = range.length then
                    callback [JSVal.null, JSVal.hosts hosts, JSVal.strs missing1] w
                  else w
        arpLoop env range callback rest hosts missing1 checked w1
      else
        match parseMac env.osType (env.arp i).stdout with
        | none => w.throwUncaught (JSError.typeError "Cannot read property replace of undefined")
        | some mac =>
          let hosts1 := hosts ++ [mkHost env w.myIP ip mac]
          let w1 := if checked = range.length then
                      callback [JSVal.null, JSVal.hosts hosts1, JSVal.strs missing] w
                    else w
          arpLoop env range callback rest hosts1 missing checked w1

/-- The `forEach` of index.js 68-84 spawns one query per address, in list order. -/
def spawnArps (range : List JSString) (w : World) : World :=
  range.foldl (fun w ip => w.emit (Event.exec ("arp ".data ++ ip))) w

/-- Model of `arpDevices(range, callback)` (index.js 60-85). `range` is `none` when the argument
is not an array. -/
def arpDevices (env : Env) (range : Option (List JSString)) (callback : Callback)
    (w : World) : World :=
  match range with
  | none => callback [JSVal.err (JSError.error "range must be an array of IP addresses")] w
  | some [] => callback [JSVal.err (JSError.error "range must not be empty")] w
  | some (ip :: ips) =>
    arpLoop env (ip :: ips) callback (env.arpOrder (ip :: ips).length) [] [] 0
      (spawnArps (ip :: ips) w)

/-! ## Discovery orchestrator -/

/-- The array carried by a callback argument, `none` when the value is not an array of
strings. -/
def JSVal.asRange : JSVal → Option (List JSString)
  | .strs l => some l
  | _ => none

/-- JavaScript truthiness of a callback argument. -/
def JSVal.truthy : JSVal → Bool
  | .undefined => false
  | .null => false
  | _ => true

/-- The callback `discover` gives to `arpDevices` (index.js 133-136). -/
def discoverArpCallback (callback : Callback) : Callback := fun args w =>
  let error := args.getD 0 JSVal.undefined
  let hosts := args.getD 1 JSVal.undefined
  if error.truthy then callback [error] w else callback [JSVal.null, hosts] w

/-- The callback `discover` gives to `pingDevices` (index.js 131-137). -/
def discoverPingCallback (env : Env) (callback : Callback) : Callback := fun args w =>
  let err := args.getD 0 JSVal.undefined
  let range := args.getD 1 JSVal.undefined
  if err.truthy then callback [err] w
  else arpDevices env range.asRange (discoverArpCallback callback) w

/-- Model of `arpping.discover(refIP, callback)` (index.js 112-138). The recursion through
`findMyInfo` consumes fuel. -/
def discover (env : Env) : Nat → Option JSString → Callback → World → World
  | fuel, refIP, callback, w0 =>
    let w := w0.emit (Event.discover refIP)
    if truthyStr refIP then
      match getFullRange w refIP with
      | .error e => w.throwUncaught e
      | .ok range =>
        pingDevices env fuel (some range) (discoverPingCallback env callback)
          { w with retry := false }
    else if !truthyStr w.myIP then
      if w.retry then
        callback [JSVal.err (JSError.error "Failed to find your IP address")]
          { w with retry := false }
      else
        match fuel with
        | 0 => { w with outOfFuel := true }
        | fuel + 1 =>
          findMyInfo env (fun args w =>
            let err := args.getD 0 JSVal.undefined
            if err.truthy then callback [err] w
            else
              match args.getD 1 JSVal.undefined with
              | JSVal.info ip _ => discover env fuel (some ip) callback { w with retry := true }
              | _ => w.throwUncaught (JSError.typeError "Cannot read property ip of undefined")) w
    else
      pingDevices env fuel none (discoverPingCallback env callback) { w with retry := false }

/-! ## Search layer -/

/-- One character inside a JSON string literal, as `JSON.stringify` writes it. -/
def jsonEscapeChar (c : Char) : JSString :=
  if c = '"' then "\\\"".data
  else if c = '\\' then "\\\\".data
  else if c.toNat = 8 then "\\b".data
  else if c.toNat = 12 then "\\f".data
  else if c.toNat = 10 then "\\n".data
  else if c.toNat = 13 then "\\r".data
  else if c.toNat = 9 then "\\t".data
  else if c.toNat < 32 then
    "\\u00".data ++ [Nat.digitChar (c.toNat / 16), Nat.digitChar (c.toNat % 16)]
  else [c]

/-- A JSON string literal. -/
def jsonQuote (s : JSString) : JSString := '"' :: s.flatMap jsonEscapeChar ++ ['"']

/-- Join the pieces with commas. -/
def commaJoin : List JSString → JSString
  | [] => []
  | [x] => x
  | x :: y :: rest => x ++ ',' :: commaJoin (y :: rest)

/-- Model of `JSON.stringify(host)`: the properties in the order in which `arpDevices` sets
them; a property whose value is `undefined` is left out. -/
def stringifyHost (h : Host) : JSString :=
  let ipField : List JSString := ["\"ip\":".data ++ jsonQuote h.ip]
  let macField : List JSString := match h.mac with
    | some m => ["\"mac\":".data ++ jsonQuote m]
    | none => []
  let typeField : List JSString := match h.type with
    | some t => ["\"type\":".data ++ jsonQuote t]
    | none => []
  let selfField : List JSString := if h.isYourDevice then ["\"isYourDevice\":true".data] else []
  "\x7b".data ++ commaJoin (ipField ++ macField ++ typeField ++ selfField) ++ "\x7d".data

/-- Model of `JSON.stringify(hosts)` for an array of host objects. -/
def stringifyHosts (hosts : List Host) : JSString :=
  '[' :: commaJoin (hosts.map stringifyHost) ++ [']']

/-- The input check of `byIpAddress` (index.js 141-142): a string becomes a one-element
array, anything but a non-empty array throws. -/
def normalizeIpArray (ipArray : SearchInput) : Except JSError (List JSString) :=
  match ipArray with
  | .str s => .ok [s]
  | .arr (x :: xs) => .ok (x :: xs)
  | v => .error (JSError.template "Invalid ipArray: " (TemplateValue.input v)
      ". Search input should be one ip address string or an array of ip strings.")

/-- The input check of `byMacAddress` (index.js 155-156): a string becomes a one-element
array, anything but a non-empty array throws. -/
def normalizeMacArray (macArray : SearchInput) : Except JSError (List JSString) :=
  match macArray with
  | .str s => .ok [s]
  | .arr (x :: xs) => .ok (x :: xs)
  | v => .error (JSError.template "Invalid macArray: " (TemplateValue.input v)
      ". Search input should be one mac address string or an array of mac address strings.")

/-- The arguments `byIpAddress` hands to its callback once discovery delivered `hosts`
(index.js 146-151): the hosts whose `ip` is an element of `ipArray`, and the requested
strings that do not occur anywhere in the serialized host list. -/
def byIpAddressResult (ipArray : List JSString) (hosts : List Host) : List JSVal :=
  let check := stringifyHosts hosts
  [JSVal.null,
   JSVal.hosts (hosts.filter (fun h => decide (h.ip ∈ ipArray))),
   JSVal.strs (ipArray.filter (fun ip => decide (indexOf check ip = -1)))]

/-- Model of `arpping.search.byIpAddress(ipArray, refIP, callback)` (index.js 140-153). A
synchronous `throw` is the `error` result. -/
def byIpAddress (env : Env) (fuel : Nat) (ipArray : SearchInput) (refIP : Option JSString)
    (callback : Callback) (w : World) : Except JSError World :=
  match normalizeIpArray ipArray with
  | .error e => .error e
  | .ok ips =>
    .ok (discover env fuel (if truthyStr refIP then refIP else ips[0]?)
      (fun args w =>
        let err := args.getD 0 JSVal.undefined
        if err.truthy then callback [err] w
        else
          match args.getD 1 JSVal.undefined with
          | JSVal.hosts hosts => callback (byIpAddressResult ips hosts) w
          | _ => w.throwUncaught (JSError.typeError "hosts.filter is not a function")) w)

/-- The filter function of index.js 163-167: `h.mac.indexOf(m)` raises a `TypeError`
when the host has no `mac`. -/
def macMatches (h : Host) : List JSString → Except JSError Bool
  | [] => .ok false
  | m :: ms =>
    match h.mac with
    | none => .error (JSError.typeError "Cannot read property indexOf of undefined")
    | some mac => if indexOf mac m > -1 then .ok true else macMatches h ms

/-- Model of `hosts.filter(...)` with the filter function of `byMacAddress`; the first exception
ends the filtering. -/
def filterByMac (macArray : List JSString) : List Host → Except JSError (List Host)
  | [] => .ok []
  | h :: hs =>
    match macMatches h macArray with
    | .error e => .error e
    | .ok b =>
      match filterByMac macArray hs with
      | .error e => .error e
      | .ok rest => .ok (if b then h :: rest else rest)

/-- The arguments `byMacAddress` hands to its callback once discovery delivered `hosts`
(index.js 160-169), or the exception raised while filtering. -/
def byMacAddressResult (macArray : List JSString) (hosts : List Host) :
    Except JSError (List JSVal) :=
  let check := stringifyHosts hosts
  match filterByMac macArray hosts with
  | .error e => .error e
  | .ok matched =>
    .ok [JSVal.null, JSVal.hosts matched,
         JSVal.strs (macArray.filter (fun m => decide (indexOf check m = -1)))]

/-- Model of `arpping.search.byMacAddress(macArray, refIP, callback)` (index.js 154-171). -/
def byMacAddress (env : Env) (fuel : Nat) (macArray : SearchInput) (refIP : Option JSString)
    (callback : Callback) (w : World) : Except JSError World :=
  match normalizeMacArray macArray with
  | .error e => .error e
  | .ok macs =>
    .ok (discover env fuel refIP
      (fun args w =>
        let err := args.getD 0 JSVal.undefined
        if err.truthy then callback [err] w
        else
          match args.getD 1 JSVal.undefined with
          | JSVal.hosts hosts =>
            match byMacAddressResult macs hosts with
            | .error e => w.throwUncaught e
            | .ok res => callback res w
          | _ => w.throwUncaught (JSError.typeError "hosts.filter is not a function")) w)

/-! ## Vocabulary of the statements -/

/-- The dotted-quad text of four octets. -/
def dottedQuad (a b c d : Nat) : JSString :=
  numToString a ++ '.' :: (numToString b ++ '.' :: (numToString c ++ '.' :: numToString d))

/-- The list `getFullRange` builds once the prefix `ipStart` is known (index.js 22-24). -/
def rangeFrom (includeEndpoints : Bool) (ipStart : JSString) : List JSString :=
  if includeEndpoints then (List.range 255).map (fun i => ipStart ++ numToString (i + 1))
  else (List.range 253).map (fun i => ipStart ++ numToString (i + 2))

/-- The prefix `getFullRange` cuts from an address (index.js 21). -/
def ipStartOf (s : JSString) : JSString := substr s 0 (lastIndexOf s ['.'] + 1)

/-- The `k`-th run of `ifconfig` makes `findMyInfo` hand an error to its callback: the
command failed (index.js 91-94), or, on Linux, its output does not mention `wlan0`
(index.js 97). -/
def findMyInfoFails (env : Env) (k : Nat) : Prop :=
  (env.ifconfig k).err.isSome = true ∨
    (env.osType = OsType.Linux ∧ indexOf (env.ifconfig k).stdout "wlan0".data = -1)

/-- The error `findMyInfo` hands over on the `k`-th run, when it fails. -/
def findMyInfoError (env : Env) (k : Nat) : JSError :=
  match (env.ifconfig k).err with
  | some e => e
  | none => JSError.error "No wifi connection"

/-- What `findMyInfo` logs on the `k`-th run, when it fails. -/
def findMyInfoLog (env : Env) (k : Nat) : List Event :=
  match (env.ifconfig k).err with
  | some e => [Event.log e]
  | none => []

/-- Addresses of the positions of `order`, in that order, whose probe answered. -/
def pingFound (env : Env) (range : List JSString) (order : List Nat) : List JSString :=
  (order.filter (fun i => !pingMissed (env.ping i))).filterMap (fun i => range[i]?)

/-- Addresses of the positions of `order`, in that order, whose probe errored or
reported total loss. -/
def pingMissing (env : Env) (range : List JSString) (order : List Nat) : List JSString :=
  (order.filter (fun i => pingMissed (env.ping i))).filterMap (fun i => range[i]?)

/-- The query for position `i` either counts as missing or has output `parseMac` reads. -/
def arpParses (env : Env) (i : Nat) : Bool :=
  arpMissed (env.arp i) || (parseMac env.osType (env.arp i).stdout).isSome

/-- The host built for position `i` of `range`, if the query resolved. -/
def arpHostAt (env : Env) (myIP : Option JSString) (range : List JSString) (i : Nat) :
    Option Host :=
  match range[i]? with
  | none => none
  | some ip =>
    if arpMissed (env.arp i) then none
    else (parseMac env.osType (env.arp i).stdout).map (mkHost env myIP ip)

/-- Hosts of the positions of `order`, in that order, whose query resolved. -/
def arpHosts (env : Env) (myIP : Option JSString) (range : List JSString)
    (order : List Nat) : List Host :=
  order.filterMap (arpHostAt env myIP range)

/-- Addresses of the positions of `order`, in that order, whose query errored or
reported no entry. -/
def arpMissing (env : Env) (range : List JSString) (order : List Nat) : List JSString :=
  (order.filter (fun i => arpMissed (env.arp i))).filterMap (fun i => range[i]?)

/-- The argument lists of the recorded callback invocations, oldest first. -/
def callbacksOf (t : List Event) : List (List JSVal) :=
  t.filterMap (fun e => match e with
    | Event.callback args => some args
    | _ => none)

/-- The commands spawned for a range of probes. -/
def pingEvents (os : OsType) (timeout : Int) (range : List JSString) : List Event :=
  range.map (fun ip => Event.exec (pingCommand os timeout ip))

/-- The commands spawned for a range of ARP queries. -/
def arpEvents (range : List JSString) : List Event :=
  range.map (fun ip => Event.exec ("arp ".data ++ ip))

/-- The range `discover` builds from a reference address (index.js 115). -/
def discoverRange (w : World) (refIP : JSString) : List JSString :=
  rangeFrom w.includeEndpoints (ipStartOf refIP)

/-- How many times `findMyInfo` was entered. -/
def findMyInfoCalls (t : List Event) : Nat := t.count Event.findMyInfo

/-- How many times `discover` was entered. -/
def discoverEntries (t : List Event) : Nat :=
  t.countP (fun e => match e with
    | Event.discover _ => true
    | _ => false)

/-- The commands spawned, oldest first. -/
def execsOf (t : List Event) : List JSString :=
  t.filterMap (fun e => match e with
    | Event.exec cmd => some cmd
    | _ => none)

/-- An environment in which positions 0 and 2 answer and position 1 reports total loss,
with the probes completing in the order 2, 0, 1. -/
def pingWitnessEnv : Env where
  osType := OsType.Linux
  ifconfig := fun _ => {}
  ping := fun i =>
    if i = 1 then { stdout := "1 packets transmitted, 0 received, 100% packet loss".data }
    else {}
  arp := fun _ => {}
  pingOrder := fun _ => [2, 0, 1]
  arpOrder := fun n => List.range n
  macLookup := fun _ => none

/-- A Linux machine on which `ifconfig` cannot be run. -/
def noIfconfigEnv : Env where
  osType := OsType.Linux
  ifconfig := fun _ => { err := some (JSError.execError 127) }
  ping := fun _ => {}
  arp := fun _ => {}
  pingOrder := fun n => List.range n
  arpOrder := fun n => List.range n
  macLookup := fun _ => none

/-- A Linux network on which only the first address of the range answers ping; its ARP
entry resolves. Probes and queries complete in list order. -/
def oneHostEnv : Env where
  osType := OsType.Linux
  ifconfig := fun _ => {}
  ping := fun i => if i = 0 then {} else { err := some (JSError.execError 1) }
  arp := fun _ =>
    { stdout := "Address HWtype HWaddress Flags Mask Iface\n10.0.0.2 ether 11:22:33:44:55:66 C wlan0\n".data }
  pingOrder := fun n => List.range n
  arpOrder := fun n => List.range n
  macLookup := fun _ => none

/-- A Linux network on which no address answers ping. -/
def silentEnv : Env where
  osType := OsType.Linux
  ifconfig := fun _ => {}
  ping := fun _ => { err := some (JSError.execError 1) }
  arp := fun _ => { stdout := "10.0.0.2 (10.0.0.2) -- no entry".data }
  pingOrder := fun n => List.range n
  arpOrder := fun n => List.range n
  macLookup := fun _ => none

/-- The addresses of the range of `refIP` that answer ping, in completion order. -/
def discoverFound (env : Env) (w : World) (refIP : JSString) : List JSString :=
  pingFound env (discoverRange w refIP) (env.pingOrder (discoverRange w refIP).length)

/-- The addresses of the range of `refIP` that do not answer ping. -/
def discoverPingMissing (env : Env) (w : World) (refIP : JSString) : List JSString :=
  pingMissing env (discoverRange w refIP) (env.pingOrder (discoverRange w refIP).length)

/-- The hosts resolved among the addresses that answered ping. -/
def discoverHosts (env : Env) (w : World) (refIP : JSString) : List Host :=
  arpHosts env w.myIP (discoverFound env w refIP)
    (env.arpOrder (discoverFound env w refIP).length)

/-- The addresses that answered ping and have no ARP entry. -/
def discoverArpMissing (env : Env) (w : World) (refIP : JSString) : List JSString :=
  arpMissing env (discoverFound env w refIP) (env.arpOrder (discoverFound env w refIP).length)

/-- The value of a decimal digit character. -/
def digitVal (c : Char) : Nat := c.toNat - 48

/-- Read a decimal numeral, continuing from the value `acc`. -/
def decodeDigits (acc : Nat) (l : List Char) : Nat :=
  l.foldl (fun a c => 10 * a + digitVal c) acc

/-- A macOS machine on which `ifconfig` runs and prints an active `en0` block. -/
def darwinEnv : Env where
  osType := OsType.Darwin
  ifconfig := fun _ =>
    { stdout := "en0: flags=8863\n\tether aa:bb:cc:dd:ee:ff\n\tinet 192.168.1.50 netmask 0xffffff00\n\tstatus: active\n".data }
  ping := fun _ => {}
  arp := fun _ => {}
  pingOrder := fun n => List.range n
  arpOrder := fun n => List.range n
  macLookup := fun _ => none

/-- A Linux network on which only `10.0.0.50` (position 48 of the range of `10.0.0.5`)
answers ping; its ARP entry resolves. -/
def fiftyEnv : Env where
  osType := OsType.Linux
  ifconfig := fun _ => {}
  ping := fun i => if i = 48 then {} else { err := some (JSError.execError 1) }
  arp := fun _ =>
    { stdout := "Address HWtype HWaddress Flags Mask Iface\n10.0.0.50 ether aa:bb:cc:dd:ee:ff C wlan0\n".data }
  pingOrder := fun n => List.range n
  arpOrder := fun n => List.range n
  macLookup := fun _ => none

/-- A macOS network on which only the first address of the range answers ping, and the
`arp` command prints, without failing, a line of fewer than four fields for it. -/
def shortArpEnv : Env where
  osType := OsType.Darwin
  ifconfig := fun _ => {}
  ping := fun i => if i = 0 then {} else { err := some (JSError.execError 1) }
  arp := fun _ => { stdout := "? (10.0.0.2) at".data }
  pingOrder := fun n => List.range n
  arpOrder := fun n => List.range n
  macLookup := fun _ => none

theorem digitChar_ne_dot (m : Nat) (h : m < 10) : Nat.digitChar m ≠ '.' := by
  interval_cases m <;> decide

theorem toDigitsCore_no_dot (fuel : Nat) : ∀ (n : Nat) (ds : List Char),
    (∀ c ∈ ds, c ≠ '.') → ∀ c ∈ Nat.toDigitsCore 10 fuel n ds, c ≠ '.' := by
  induction fuel with
  | zero => intro n ds h; simpa [Nat.toDigitsCore] using h
  | succ f ih =>
    intro n ds h
    have hcons : ∀ c ∈ Nat.digitChar (n % 10) :: ds, c ≠ '.' := by
      intro c hc
      rcases List.mem_cons.mp hc with rfl | hc
      · exact digitChar_ne_dot _ (Nat.mod_lt _ (by decide))
      · exact h c hc
    simp only [Nat.toDigitsCore]
    split
    · exact hcons
    · exact ih _ _ hcons

theorem numToString_no_dot (n : Nat) : '.' ∉ numToString n := by
  intro h
  exact toDigitsCore_no_dot (n + 1) n [] (by simp) '.' h rfl

theorem dot_isPrefixOf_cons (c : Char) (cs : JSString) :
    List.isPrefixOf ['.'] (c :: cs) = decide (c = '.') := by
  by_cases h : c = '.' <;> simp [List.isPrefixOf, h]
  exact fun h2 => h h2.symm

theorem lastIndexOfFrom_no_dot (s : JSString) : ∀ (i : Nat) (acc : Int),
    '.' ∉ s → lastIndexOfFrom ['.'] s i acc = acc := by
  induction s with
  | nil => intro i acc _; simp [lastIndexOfFrom, List.isPrefixOf]
  | cons c cs ih =>
    intro i acc h
    have hc : c ≠ '.' := fun e => h (by simp [e])
    have hcs : '.' ∉ cs := fun e => h (List.mem_cons_of_mem _ e)
    simp only [lastIndexOfFrom, dot_isPrefixOf_cons, hc, decide_False]
    simpa using ih (i + 1) acc hcs

theorem lastIndexOfFrom_last_dot (p d : JSString) (hd : '.' ∉ d) : ∀ (i : Nat) (acc : Int),
    lastIndexOfFrom ['.'] (p ++ '.' :: d) i acc = ((i + p.length : Nat) : Int) := by
  induction p with
  | nil =>
    intro i acc
    simp only [List.nil_append, lastIndexOfFrom, dot_isPrefixOf_cons]
    simpa using lastIndexOfFrom_no_dot d (i + 1) (i : Int) hd
  | cons c cs ih =>
    intro i acc
    rw [List.cons_append]
    simp only [lastIndexOfFrom]
    rw [ih]
    simp only [List.length_cons]
    congr 1
    omega

theorem substr_zero (s : JSString) (n : Nat) : substr s 0 (n : Int) = s.take n := by
  simp [substr]

theorem ipStart_of_last_dot (p d : JSString) (hd : '.' ∉ d) :
    substr (p ++ '.' :: d) 0 (lastIndexOf (p ++ '.' :: d) ['.'] + 1) = p ++ ['.'] := by
  unfold lastIndexOf
  rw [lastIndexOfFrom_last_dot p d hd]
  have : (((0 + p.length : Nat) : Int) + 1) = ((p.length + 1 : Nat) : Int) := by push_cast; omega
  rw [this, substr_zero]
  rw [List.take_append_eq_append_take]
  simp

theorem ipStart_of_no_dot (s : JSString) (h : '.' ∉ s) :
    substr s 0 (lastIndexOf s ['.'] + 1) = [] := by
  unfold lastIndexOf
  rw [lastIndexOfFrom_no_dot s 0 (-1) h]
  simp [substr]

/-- Every string splits at its last dot. -/
theorem split_last_dot (s : JSString) :
    '.' ∉ s ∨ ∃ p d, s = p ++ '.' :: d ∧ '.' ∉ d := by
  induction s with
  | nil => left; simp
  | cons c cs ih =>
    rcases ih with h | ⟨p, d, rfl, hd⟩
    · by_cases hc : c = '.'
      · right; exact ⟨[], cs, by simp [hc], h⟩
      · left; simp [hc, h]; exact fun e => hc e.symm
    · right; exact ⟨c :: p, d, by simp, hd⟩

theorem getFullRange_some (w : World) (s : JSString) (hs : s ≠ []) :
    getFullRange w (some s) =
      .ok (rangeFrom w.includeEndpoints (substr s 0 (lastIndexOf s ['.'] + 1))) := by
  cases s with
  | nil => exact absurd rfl hs
  | cons c cs => simp [getFullRange, truthyStr, rangeFrom]


theorem dottedQuad_split (a b c d : Nat) :
    dottedQuad a b c d =
      (numToString a ++ '.' :: (numToString b ++ '.' :: numToString c)) ++ '.' :: numToString d := by
  simp [dottedQuad]

theorem dottedQuad_ne_nil (a b c d : Nat) : dottedQuad a b c d ≠ [] := by
  rw [dottedQuad_split]; simp

theorem ipStart_dottedQuad (a b c d k : Nat) :
    substr (dottedQuad a b c d) 0 (lastIndexOf (dottedQuad a b c d) ['.'] + 1) ++ numToString k =
      dottedQuad a b c k := by
  rw [dottedQuad_split, ipStart_of_last_dot _ _ (numToString_no_dot d)]
  simp [dottedQuad]

theorem fullRange_of_dottedQuad (w : World) (a b c d : Nat) :
    getFullRange w (some (dottedQuad a b c d)) =
      .ok (if w.includeEndpoints then (List.range' 1 255).map (dottedQuad a b c)
           else (List.range' 2 253).map (dottedQuad a b c)) := by
  rw [getFullRange_some w _ (dottedQuad_ne_nil a b c d)]
  unfold rangeFrom
  simp only [ipStart_dottedQuad, List.range'_eq_map_range, List.map_map]
  have h1 : (fun i => dottedQuad a b c (i + 1)) = dottedQuad a b c ∘ (fun i => 1 + i) := by
    funext i; simp [Nat.add_comm]
  have h2 : (fun i => dottedQuad a b c (i + 2)) = dottedQuad a b c ∘ (fun i => 2 + i) := by
    funext i; simp [Nat.add_comm]
  rw [h1, h2]

/-- C1. For every dotted-quad address `a.b.c.d`, `getFullRange` returns `a.b.c.1`, ...,
`a.b.c.255` in ascending order (255 entries) when `includeEndpoints` is set and
`a.b.c.2`, ..., `a.b.c.254` (253 entries) when it is not; every entry is the dotted quad
of the same first three octets. For `192.168.1.50` with the flag clear the list runs from
`192.168.1.2` to `192.168.1.254`. -/
theorem getFullRange_dottedQuad (w : World) (a b c d : Nat) :
    getFullRange { w with includeEndpoints := true } (some (dottedQuad a b c d)) =
        .ok ((List.range' 1 255).map (dottedQuad a b c)) ∧
    getFullRange { w with includeEndpoints := false } (some (dottedQuad a b c d)) =
        .ok ((List.range' 2 253).map (dottedQuad a b c)) ∧
    ((List.range' 1 255).map (dottedQuad a b c)).length = 255 ∧
    ((List.range' 2 253).map (dottedQuad a b c)).length = 253 ∧
    getFullRange { w with includeEndpoints := false } (some "192.168.1.50".data) =
        .ok ((List.range' 2 253).map (fun k => "192.168.1.".data ++ numToString k)) ∧
    ((List.range' 2 253).map (fun k => "192.168.1.".data ++ numToString k))[0]? =
        some "192.168.1.2".data ∧
    ((List.range' 2 253).map (fun k => "192.168.1.".data ++ numToString k))[252]? =
        some "192.168.1.254".data := by
  have e0 : (List.range' 2 253)[0]? = some 2 := by simp [List.getElem?_range']
  have e1 : (List.range' 2 253)[252]? = some 254 := by simp [List.getElem?_range']
  refine ⟨?_, ?_, by simp, by simp, ?_, ?_, ?_⟩
  rotate_left 3
  · rw [List.getElem?_map, e0]; decide
  · rw [List.getElem?_map, e1]; decide
  · rw [fullRange_of_dottedQuad]; rfl
  · rw [fullRange_of_dottedQuad]; rfl
  · have h : "192.168.1.50".data = dottedQuad 192 168 1 50 := by decide
    rw [h, fullRange_of_dottedQuad]
    rfl

theorem rangeFrom_length (b : Bool) (s : JSString) :
    (rangeFrom b s).length = if b then 255 else 253 := by
  cases b <;> simp [rangeFrom]

/-- C9 (as the code behaves). `getFullRange` checks nothing: for every non-empty string
`s`, well-formed or not, it returns a list, never an error. With `s` cut after its last
dot into `ipStart ++ d` (`ipStart` is empty when `s` has no dot), the list is `ipStart`
followed by 1..255 when `includeEndpoints` is set (255 entries) and by 2..254 when it is
not (253 entries). -/
theorem getFullRange_never_rejects (w : World) (s : JSString) (hs : s ≠ []) :
    ∃ ipStart d, s = ipStart ++ d ∧ '.' ∉ d ∧ (ipStart = [] ∨ ∃ p, ipStart = p ++ ['.']) ∧
      getFullRange w (some s) = .ok (rangeFrom w.includeEndpoints ipStart) ∧
      (rangeFrom w.includeEndpoints ipStart).length = (if w.includeEndpoints then 255 else 253) := by
  rcases split_last_dot s with h | ⟨p, d, rfl, hd⟩
  · refine ⟨[], s, by simp, h, Or.inl rfl, ?_, rangeFrom_length _ _⟩
    rw [getFullRange_some w s hs, ipStart_of_no_dot s h]
  · refine ⟨p ++ ['.'], d, by simp, hd, Or.inr ⟨p, rfl⟩, ?_, rangeFrom_length _ _⟩
    rw [getFullRange_some w _ hs, ipStart_of_last_dot p d hd]

/-- Witness for C9: the malformed input `192.168.1`. -/
theorem getFullRange_never_rejects_witness :
    ∃ ipStart d, "192.168.1".data = ipStart ++ d ∧ '.' ∉ d ∧
      (ipStart = [] ∨ ∃ p, ipStart = p ++ ['.']) ∧
      getFullRange {} (some "192.168.1".data) = .ok (rangeFrom false ipStart) ∧
      (rangeFrom false ipStart).length = (if false then 255 else 253) :=
  getFullRange_never_rejects {} "192.168.1".data (by decide)

/-- C9 fails as stated: the inputs `abc` and `192.168.1` are not addresses, and
`getFullRange` returns 253 candidate strings for each of them instead of an error. -/
theorem getFullRange_malformed_counterexample :
    getFullRange {} (some "abc".data) = .ok ((List.range' 2 253).map numToString) ∧
    getFullRange {} (some "192.168.1".data) =
      .ok ((List.range' 2 253).map (fun k => "192.168.".data ++ numToString k)) := by
  constructor
  · rw [getFullRange_some _ _ (by decide), ipStart_of_no_dot _ (by decide)]
    simp [rangeFrom, List.range'_eq_map_range, Nat.add_comm]
  · have h : "192.168.1".data = "192.168".data ++ '.' :: "1".data := by decide
    rw [getFullRange_some _ _ (by decide), h, ipStart_of_last_dot _ _ (by decide)]
    simp [rangeFrom, List.range'_eq_map_range, Nat.add_comm]

/-- Every integer timeout below 0 or above 60 is rejected with the invalid-timeout
error. -/
theorem moduleExports_rejects (w : World) (t : Int) (incl : Bool) (h : t < 0 ∨ 60 < t) :
    moduleExports w { timeout := some t, includeEndpoints := incl } =
      .error (JSError.template "Invalid timeout: " (TemplateValue.number t)
        ". Please choose a timeout between 1 and 60s") := by
  have h0 : t ≠ 0 := by omega
  have h1 : t < 1 ∨ t > 60 := by omega
  simp [moduleExports, h0, h1]

/-- C2 (the code at timeout 0). The timeout `0` lies outside [1,60], yet construction
with `timeout: 0` throws nothing: in every state it returns the engine, and
`arpping.timeout` keeps its value (10 after loading). The guard `if (options.timeout)`
is false for `0`, so the range check that rejects `-1` and `61` is never reached. -/
theorem moduleExports_zero_accepted (w : World) (incl : Bool) :
    moduleExports w { timeout := some 0, includeEndpoints := incl } =
      .ok (if incl then { w with includeEndpoints := true } else w) ∧
    moduleExports {} { timeout := some 0 } = .ok {} ∧
    ({} : World).timeout = 10 ∧
    moduleExports {} { timeout := some (-1) } =
      .error (JSError.template "Invalid timeout: " (TemplateValue.number (-1))
        ". Please choose a timeout between 1 and 60s") ∧
    moduleExports {} { timeout := some 61 } =
      .error (JSError.template "Invalid timeout: " (TemplateValue.number 61)
        ". Please choose a timeout between 1 and 60s") := by
  refine ⟨?_, rfl, rfl, ?_, ?_⟩
  · simp [moduleExports]
  · exact moduleExports_rejects {} (-1) false (by decide)
  · exact moduleExports_rejects {} 61 false (by decide)

theorem filterMap_getElem?_range (R : List JSString) :
    (List.range R.length).filterMap (fun i => R[i]?) = R := by
  induction R with
  | nil => simp
  | cons a l ih =>
    rw [List.length_cons, List.range_succ_eq_map, List.filterMap_cons]
    simp only [List.getElem?_cons_zero, List.filterMap_map]
    congr 1
    have hf : ((fun i => (a :: l)[i]?) ∘ Nat.succ) = (fun i => l[i]?) := by
      funext i; simp
    rw [hf, ih]

theorem spawnPings_eq (os : OsType) (R : List JSString) : ∀ (w : World),
    spawnPings os R w = { w with trace := w.trace ++ pingEvents os w.timeout R } := by
  induction R with
  | nil => intro w; simp [spawnPings, pingEvents]
  | cons ip ips ih =>
    intro w
    have := ih (w.emit (Event.exec (pingCommand os w.timeout ip)))
    simp only [spawnPings, List.foldl_cons] at this ⊢
    rw [this]
    simp [World.emit, pingEvents]

theorem pingLoop_early (env : Env) (range : List JSString) (cb : Callback) :
    ∀ (order : List Nat) (found missing : List JSString) (checked : Nat) (w : World),
      checked + order.length < range.length →
      pingLoop env range cb order found missing checked w = w := by
  intro order
  induction order with
  | nil => intro found missing checked w _; rfl
  | cons i rest ih =>
    intro found missing checked w h
    simp only [List.length_cons] at h
    unfold pingLoop
    split
    · rfl
    · split
      · exact ih _ _ _ _ (by omega)
      · have hne : ¬ (checked + 1 = range.length) := by omega
        simp only [hne, if_false]
        exact ih _ _ _ _ (by omega)

theorem pingLoop_complete (env : Env) (range : List JSString) (cb : Callback) :
    ∀ (order : List Nat) (found missing : List JSString) (checked : Nat) (w : World),
      order ≠ [] → (∀ i ∈ order, i < range.length) →
      checked + order.length = range.length → w.crashed = false →
      pingLoop env range cb order found missing checked w =
        cb [JSVal.null, JSVal.strs (found ++ pingFound env range order),
            JSVal.strs (missing ++ pingMissing env range order)] w := by
  intro order
  induction order with
  | nil => intro _ _ _ _ h; exact absurd rfl h
  | cons i rest ih =>
    intro found missing checked w _ hval hlen hw
    have hi : i < range.length := hval i (List.mem_cons_self _ _)
    have hget : range[i]? = some range[i] := List.getElem?_eq_getElem hi
    simp only [List.length_cons] at hlen
    unfold pingLoop
    simp only [hw, Bool.false_eq_true, if_false, hget]
    cases rest with
    | nil =>
      have hc : checked + 1 = range.length := by simpa using hlen
      simp only [hc, if_true, pingLoop]
      by_cases hm : pingMissed (env.ping i) = true <;>
        simp [pingFound, pingMissing, hm, hget]
    | cons j rest2 =>
      have hne : ¬ (checked + 1 = range.length) := by simp only [List.length_cons] at hlen; omega
      simp only [hne, if_false]
      rw [ih _ _ _ _ (by simp) (fun k hk => hval k (List.mem_cons_of_mem _ hk))
        (by simp only [List.length_cons] at hlen ⊢; omega) hw]
      by_cases hm : pingMissed (env.ping i) = true <;>
        simp [pingFound, pingMissing, hm, hget, List.filter_cons]

theorem perm_range_valid {n : Nat} {order : List Nat} (h : order.Perm (List.range n)) :
    (∀ i ∈ order, i < n) ∧ order.length = n := by
  refine ⟨fun i hi => List.mem_range.mp ((h.mem_iff).mp hi), ?_⟩
  simpa using h.length_eq

theorem pingFound_append_pingMissing_perm (env : Env) (R : List JSString) (order : List Nat)
    (h : order.Perm (List.range R.length)) :
    (pingFound env R order ++ pingMissing env R order).Perm R := by
  unfold pingFound pingMissing
  rw [← List.filterMap_append]
  have h1 : (List.filter (fun i => !pingMissed (env.ping i)) order ++
      List.filter (fun i => pingMissed (env.ping i)) order).Perm order := by
    have := List.filter_append_perm (fun i => !pingMissed (env.ping i)) order
    simpa using this
  have h2 := (h1.trans h).filterMap (fun i => R[i]?)
  rwa [filterMap_getElem?_range] at h2

theorem indexOfFrom_eq_neg_one_iff (pat : JSString) : ∀ (s : JSString) (i : Nat),
    indexOfFrom pat s i = -1 ↔ ¬ pat <:+: s := by
  intro s
  induction s with
  | nil =>
    intro i
    unfold indexOfFrom
    by_cases h : pat = []
    · subst h; simp [List.isPrefixOf]
    · have : pat.isPrefixOf [] = false := by
        cases pat with
        | nil => exact absurd rfl h
        | cons a l => rfl
      simp [this, h]
  | cons c cs ih =>
    intro i
    unfold indexOfFrom
    rw [List.infix_cons_iff]
    by_cases h : pat.isPrefixOf (c :: cs) = true
    · have hp := List.isPrefixOf_iff_prefix.mp h
      simp only [h, if_true]
      constructor
      · intro e; omega
      · intro e; exact absurd (Or.inl hp) e
    · have hp : ¬ pat <+: c :: cs := fun e => h (List.isPrefixOf_iff_prefix.mpr e)
      simp only [h, if_false, Bool.false_eq_true]
      rw [ih (i + 1)]
      simp [hp]

theorem indexOfFrom_ge (pat : JSString) : ∀ (s : JSString) (i : Nat),
    indexOfFrom pat s i = -1 ∨ (i : Int) ≤ indexOfFrom pat s i := by
  intro s
  induction s with
  | nil => intro i; unfold indexOfFrom; split <;> simp
  | cons c cs ih =>
    intro i
    unfold indexOfFrom
    split
    · simp
    · rcases ih (i + 1) with h | h
      · exact Or.inl h
      · right; push_cast at h; omega

/-- The search `indexOf` finds the pattern exactly when it is a contiguous substring. -/
theorem indexOf_found_iff (s pat : JSString) : indexOf s pat > -1 ↔ pat <:+: s := by
  unfold indexOf
  have h1 := indexOfFrom_eq_neg_one_iff pat s 0
  rcases indexOfFrom_ge pat s 0 with h | h
  · rw [h]; simp; exact h1.mp h
  · constructor
    · intro _; by_contra hc; have := h1.mpr hc; omega
    · intro _; push_cast at h; omega

theorem indexOf_eq_neg_one_iff (s pat : JSString) : indexOf s pat = -1 ↔ ¬ pat <:+: s :=
  indexOfFrom_eq_neg_one_iff pat s 0

theorem pingMissed_iff (r : ExecResult) :
    pingMissed r = true ↔ (r.err.isSome = true ∨ "100% packet loss".data <:+: r.stdout) := by
  simp [pingMissed, indexOf_found_iff]

theorem callbacksOf_append (t1 t2 : List Event) :
    callbacksOf (t1 ++ t2) = callbacksOf t1 ++ callbacksOf t2 := by
  simp [callbacksOf, List.filterMap_append]

theorem callbacksOf_pingEvents (os : OsType) (t : Int) (R : List JSString) :
    callbacksOf (pingEvents os t R) = [] := by
  induction R with
  | nil => rfl
  | cons ip ips ih =>
    simp only [pingEvents, List.map_cons, callbacksOf, List.filterMap_cons] at ih ⊢
    exact ih

theorem callbacksOf_arpEvents (R : List JSString) : callbacksOf (arpEvents R) = [] := by
  induction R with
  | nil => rfl
  | cons ip ips ih =>
    simp only [arpEvents, List.map_cons, callbacksOf, List.filterMap_cons] at ih ⊢
    exact ih

/-- C4. For a non-empty list `R`, any probe outcomes and any completion order (a
permutation of the positions of `R`), `pingDevices` spawns one probe per address and
then invokes the callback exactly once: after any `k < |R|` completions nothing has been
reported, and after the last one the callback receives the responsive and unresponsive
lists. The two lists together are a permutation of `R`; the unresponsive list holds, in
completion order, exactly the positions whose probe errored or printed
`100% packet loss`, and the responsive list the others. -/
theorem pingDevices_partition (env : Env) (fuel : Nat) (R : List JSString) (w : World)
    (hR : R ≠ []) (hw : w.crashed = false)
    (horder : (env.pingOrder R.length).Perm (List.range R.length)) :
    pingDevices env fuel (some R) record w =
      { w with trace := w.trace ++ pingEvents env.osType w.timeout R ++
          [Event.callback [JSVal.null,
            JSVal.strs (pingFound env R (env.pingOrder R.length)),
            JSVal.strs (pingMissing env R (env.pingOrder R.length))]] } ∧
    callbacksOf (pingDevices env fuel (some R) record w).trace =
      callbacksOf w.trace ++
        [[JSVal.null, JSVal.strs (pingFound env R (env.pingOrder R.length)),
          JSVal.strs (pingMissing env R (env.pingOrder R.length))]] ∧
    (∀ k, k < R.length →
      pingLoop env R record ((env.pingOrder R.length).take k) [] [] 0
        (spawnPings env.osType R w) = spawnPings env.osType R w) ∧
    (pingFound env R (env.pingOrder R.length) ++
      pingMissing env R (env.pingOrder R.length)).Perm R ∧
    pingMissing env R (env.pingOrder R.length) =
      ((env.pingOrder R.length).filter (fun i => decide ((env.ping i).err.isSome = true ∨
        "100% packet loss".data <:+: (env.ping i).stdout))).filterMap (fun i => R[i]?) ∧
    pingFound env R (env.pingOrder R.length) =
      ((env.pingOrder R.length).filter (fun i => !decide ((env.ping i).err.isSome = true ∨
        "100% packet loss".data <:+: (env.ping i).stdout))).filterMap (fun i => R[i]?) := by
  obtain ⟨hval, hlen⟩ := perm_range_valid horder
  have hne : env.pingOrder R.length ≠ [] := by
    intro h
    rw [h] at hlen
    exact hR (List.length_eq_zero.mp hlen.symm)
  have hrun : pingDevices env fuel (some R) record w =
      { w with trace := w.trace ++ pingEvents env.osType w.timeout R ++
          [Event.callback [JSVal.null,
            JSVal.strs (pingFound env R (env.pingOrder R.length)),
            JSVal.strs (pingMissing env R (env.pingOrder R.length))]] } := by
    cases R with
    | nil => exact absurd rfl hR
    | cons a l =>
      unfold pingDevices
      simp only [if_true, Option.getD_some]
      rw [pingLoop_complete env (a :: l) record _ [] [] 0 _ hne hval (by simpa using hlen)
        (by rw [spawnPings_eq]; exact hw)]
      rw [spawnPings_eq]
      simp [record, World.emit]
  have hfilter : ∀ i, pingMissed (env.ping i) = decide ((env.ping i).err.isSome = true ∨
        "100% packet loss".data <:+: (env.ping i).stdout) := by
    intro i
    rw [Bool.eq_iff_iff, pingMissed_iff]
    simp
  refine ⟨hrun, ?_, ?_, pingFound_append_pingMissing_perm env R _ horder, ?_, ?_⟩
  · rw [hrun]
    simp only [callbacksOf_append, callbacksOf_pingEvents, List.append_nil]
    rfl
  · intro k hk
    apply pingLoop_early
    simp only [List.length_take]
    omega
  · unfold pingMissing
    congr 1
    apply List.filter_congr
    intro i _
    exact hfilter i
  · unfold pingFound
    congr 1
    apply List.filter_congr
    intro i _
    rw [hfilter i]

/-- Witness for C4: three addresses, the second unresponsive, completing in the order
third, first, second. -/
theorem pingDevices_partition_witness :
    ["10.0.0.2".data, "10.0.0.3".data, "10.0.0.4".data] ≠ [] ∧
    (pingWitnessEnv.pingOrder 3).Perm (List.range 3) ∧
    callbacksOf (pingDevices pingWitnessEnv 0
        (some ["10.0.0.2".data, "10.0.0.3".data, "10.0.0.4".data]) record {}).trace =
      [[JSVal.null, JSVal.strs ["10.0.0.4".data, "10.0.0.2".data],
        JSVal.strs ["10.0.0.3".data]]] :=
  ⟨by decide, by decide,
    (pingDevices_partition pingWitnessEnv 0 ["10.0.0.2".data, "10.0.0.3".data, "10.0.0.4".data]
      {} (by decide) rfl (by decide)).2.1⟩

theorem macMatches_eq (h : Host) (mac : JSString) (hm : h.mac = some mac) :
    ∀ macArray : List JSString,
      macMatches h macArray = .ok (decide (∃ m ∈ macArray, m <:+: mac)) := by
  intro macArray
  induction macArray with
  | nil => simp [macMatches]
  | cons m ms ih =>
    simp only [macMatches, hm]
    by_cases hin : m <:+: mac
    · have : indexOf mac m > -1 := (indexOf_found_iff mac m).mpr hin
      simp [this, hin]
    · have : ¬ indexOf mac m > -1 := fun e => hin ((indexOf_found_iff mac m).mp e)
      simp only [this, if_false, ih]
      simp [hin]

theorem filterByMac_eq (macArray : List JSString) : ∀ hosts : List Host,
    (∀ h ∈ hosts, h.mac.isSome = true) →
    filterByMac macArray hosts =
      .ok (hosts.filter (fun h => decide (∃ m ∈ macArray, m <:+: h.mac.getD []))) := by
  intro hosts
  induction hosts with
  | nil => intro _; rfl
  | cons h hs ih =>
    intro hall
    obtain ⟨mac, hm⟩ := Option.isSome_iff_exists.mp (hall h (List.mem_cons_self _ _))
    have ih2 := ih (fun x hx => hall x (List.mem_cons_of_mem _ hx))
    simp only [filterByMac, macMatches_eq h mac hm macArray, ih2, List.filter_cons, hm,
      Option.getD_some]

/-- On hosts that all carry a MAC string, the matched list `byMacAddress` computes is
exactly the hosts, in discovery order, whose `mac` contains at least one requested token
as a contiguous substring; a host with MAC `AA:BB:CC:11:22:33` is matched by the token
`AA:BB:CC`. -/
theorem byMacAddressResult_matched (macArray : List JSString) (hosts : List Host)
    (hmac : ∀ h ∈ hosts, h.mac.isSome = true) :
    byMacAddressResult macArray hosts =
      .ok [JSVal.null,
           JSVal.hosts (hosts.filter (fun h => decide (∃ m ∈ macArray, m <:+: h.mac.getD []))),
           JSVal.strs (macArray.filter (fun m => decide (indexOf (stringifyHosts hosts) m = -1)))] ∧
    byMacAddressResult ["AA:BB:CC".data]
        [{ ip := "10.0.0.7".data, mac := some "AA:BB:CC:11:22:33".data }] =
      .ok [JSVal.null,
           JSVal.hosts [{ ip := "10.0.0.7".data, mac := some "AA:BB:CC:11:22:33".data }],
           JSVal.strs []] := by
  refine ⟨?_, by rfl⟩
  simp only [byMacAddressResult, filterByMac_eq macArray hosts hmac]

/-- The result `byIpAddress` computes from a host list none of whose hosts has the
requested `ip`: no matched host has that ip, and the request is unmatched exactly when
it occurs nowhere in the JSON text of the hosts. -/
theorem byIpAddressResult_unmatched (ipArray : List JSString) (hosts : List Host)
    (ip : JSString) (hip : ip ∈ ipArray) (hno : ∀ h ∈ hosts, h.ip ≠ ip) :
    ∃ matched unmatched,
      byIpAddressResult ipArray hosts = [JSVal.null, JSVal.hosts matched, JSVal.strs unmatched] ∧
      (∀ h ∈ matched, h.ip ≠ ip) ∧
      (ip ∈ unmatched ↔ ¬ ip <:+: stringifyHosts hosts) ∧
      byIpAddressResult [ip] hosts =
        [JSVal.null, JSVal.hosts [],
         JSVal.strs (if ip <:+: stringifyHosts hosts then [] else [ip])] := by
  refine ⟨_, _, rfl, ?_, ?_, ?_⟩
  · intro h hh
    exact hno h (List.mem_filter.mp hh).1
  · rw [List.mem_filter]
    simp [hip, indexOf_eq_neg_one_iff]
  · have hm : hosts.filter (fun h => decide (h.ip ∈ [ip])) = [] := by
      rw [List.filter_eq_nil_iff]
      intro h hh
      simp only [List.mem_singleton, decide_eq_true_eq]
      exact hno h hh
    unfold byIpAddressResult
    simp only [hm]
    by_cases hin : ip <:+: stringifyHosts hosts
    · have : ¬ indexOf (stringifyHosts hosts) ip = -1 :=
        fun e => (indexOf_eq_neg_one_iff _ _).mp e hin
      simp [List.filter_cons, this, hin]
    · simp [List.filter_cons, (indexOf_eq_neg_one_iff _ _).mpr hin, hin]

theorem findMyInfo_of_fails (env : Env) (cb : Callback) (w : World)
    (hfail : findMyInfoFails env w.ifconfigRuns) :
    findMyInfo env cb w =
      cb [JSVal.err (findMyInfoError env w.ifconfigRuns)]
        { w with ifconfigRuns := w.ifconfigRuns + 1,
                 trace := w.trace ++ [Event.findMyInfo, Event.exec "ifconfig".data] ++
                   findMyInfoLog env w.ifconfigRuns } := by
  unfold findMyInfo findMyInfoError findMyInfoLog
  cases herr : (env.ifconfig w.ifconfigRuns).err with
  | some e => simp [herr, World.emit]
  | none =>
    rcases hfail with h | ⟨hos, hidx⟩
    · rw [herr] at h; cases h
    · simp [herr, hos, hidx, World.emit]

theorem callbacksOf_findMyInfoLog (env : Env) (k : Nat) :
    callbacksOf (findMyInfoLog env k) = [] := by
  unfold findMyInfoLog
  split <;> rfl

theorem findMyInfoCalls_findMyInfoLog (env : Env) (k : Nat) :
    findMyInfoCalls (findMyInfoLog env k) = 0 := by
  unfold findMyInfoLog
  split <;> rfl

theorem discoverEntries_findMyInfoLog (env : Env) (k : Nat) :
    discoverEntries (findMyInfoLog env k) = 0 := by
  unfold findMyInfoLog
  split <;> rfl

theorem execsOf_findMyInfoLog (env : Env) (k : Nat) :
    execsOf (findMyInfoLog env k) = [] := by
  unfold findMyInfoLog
  split <;> rfl

theorem findMyInfoCalls_append (t1 t2 : List Event) :
    findMyInfoCalls (t1 ++ t2) = findMyInfoCalls t1 + findMyInfoCalls t2 := by
  simp [findMyInfoCalls]

theorem discoverEntries_append (t1 t2 : List Event) :
    discoverEntries (t1 ++ t2) = discoverEntries t1 + discoverEntries t2 := by
  simp [discoverEntries]

theorem execsOf_append (t1 t2 : List Event) :
    execsOf (t1 ++ t2) = execsOf t1 ++ execsOf t2 := by
  simp [execsOf, List.filterMap_append]

/-- With no reference address, no cached local IP and the retry flag clear, an identity
resolution that hands an error to its callback (the command failed, or no `wlan0` on
Linux) makes `discover` do exactly this and nothing more: enter
`discover` once, enter `findMyInfo` once, spawn `ifconfig` (and log the error when the
command itself failed), and hand the error to the callback once. No ping or arp command
is spawned and `discover` is not entered again. -/
theorem discover_identity_error (env : Env) (fuel : Nat) (refIP : Option JSString)
    (w : World) (href : truthyStr refIP = false) (hip : truthyStr w.myIP = false)
    (hretry : w.retry = false) (hfail : findMyInfoFails env w.ifconfigRuns) :
    discover env (fuel + 1) refIP record w =
      { w with ifconfigRuns := w.ifconfigRuns + 1,
               trace := w.trace ++
                 [Event.discover refIP, Event.findMyInfo, Event.exec "ifconfig".data] ++
                 findMyInfoLog env w.ifconfigRuns ++
                 [Event.callback [JSVal.err (findMyInfoError env w.ifconfigRuns)]] } ∧
    findMyInfoCalls (discover env (fuel + 1) refIP record w).trace =
      findMyInfoCalls w.trace + 1 ∧
    callbacksOf (discover env (fuel + 1) refIP record w).trace =
      callbacksOf w.trace ++ [[JSVal.err (findMyInfoError env w.ifconfigRuns)]] ∧
    discoverEntries (discover env (fuel + 1) refIP record w).trace =
      discoverEntries w.trace + 1 ∧
    execsOf (discover env (fuel + 1) refIP record w).trace =
      execsOf w.trace ++ ["ifconfig".data] := by
  have hrun : discover env (fuel + 1) refIP record w =
      { w with ifconfigRuns := w.ifconfigRuns + 1,
               trace := w.trace ++
                 [Event.discover refIP, Event.findMyInfo, Event.exec "ifconfig".data] ++
                 findMyInfoLog env w.ifconfigRuns ++
                 [Event.callback [JSVal.err (findMyInfoError env w.ifconfigRuns)]] } := by
    unfold discover
    simp only [href, Bool.false_eq_true, if_false]
    have h1 : truthyStr (w.emit (Event.discover refIP)).myIP = false := hip
    have h2 : (w.emit (Event.discover refIP)).retry = false := hretry
    simp only [h1, h2, Bool.not_false, if_true, Bool.false_eq_true, if_false]
    have hf : findMyInfoFails env (w.emit (Event.discover refIP)).ifconfigRuns := hfail
    rw [findMyInfo_of_fails env _ _ hf]
    simp [JSVal.truthy, record, World.emit]
  refine ⟨hrun, ?_, ?_, ?_, ?_⟩
  · rw [hrun]
    simp only [findMyInfoCalls_append, findMyInfoCalls_findMyInfoLog]
    have e1 : ∀ cmd, findMyInfoCalls
        [Event.discover refIP, Event.findMyInfo, Event.exec cmd] = 1 := fun _ => rfl
    have e2 : findMyInfoCalls
        [Event.callback [JSVal.err (findMyInfoError env w.ifconfigRuns)]] = 0 := rfl
    rw [e1, e2]
  · rw [hrun]
    simp only [callbacksOf_append, callbacksOf_findMyInfoLog, List.append_nil,
      List.append_assoc]
    rfl
  · rw [hrun]
    simp only [discoverEntries_append, discoverEntries_findMyInfoLog]
    have e1 : ∀ cmd, discoverEntries
        [Event.discover refIP, Event.findMyInfo, Event.exec cmd] = 1 := fun _ => rfl
    have e2 : discoverEntries
        [Event.callback [JSVal.err (findMyInfoError env w.ifconfigRuns)]] = 0 := rfl
    rw [e1, e2]
  · rw [hrun]
    simp only [execsOf_append, execsOf_findMyInfoLog, List.append_nil, List.append_assoc]
    rfl

/-- The error path on a machine on which `ifconfig` cannot be run. -/
theorem discover_identity_error_witness :
    truthyStr none = false ∧ truthyStr ({} : World).myIP = false ∧
    ({} : World).retry = false ∧ findMyInfoFails noIfconfigEnv ({} : World).ifconfigRuns ∧
    (discover noIfconfigEnv 1 none record {}).trace =
      [Event.discover none, Event.findMyInfo, Event.exec "ifconfig".data,
       Event.log (JSError.execError 127),
       Event.callback [JSVal.err (JSError.execError 127)]] :=
  ⟨rfl, rfl, rfl, Or.inl rfl,
   congrArg World.trace
     (discover_identity_error noIfconfigEnv 0 none {} rfl rfl rfl (Or.inl rfl)).1⟩

theorem pingDevices_loop_step (env : Env) (n : Nat) (range : Option (List JSString))
    (cb : Callback) (w : World) (hrange : range = none ∨ range = some [])
    (hip : truthyStr w.myIP = false) (hfail : findMyInfoFails env w.ifconfigRuns) :
    pingDevices env (n + 1) range cb w =
      pingDevices env n range cb
        { w with ifconfigRuns := w.ifconfigRuns + 1,
                 trace := w.trace ++ [Event.findMyInfo, Event.exec "ifconfig".data] ++
                   findMyInfoLog env w.ifconfigRuns } := by
  conv => lhs; unfold pingDevices
  rcases hrange with rfl | rfl <;>
    simp only [hip, Bool.false_eq_true, if_false, Bool.not_false, if_true] <;>
    rw [findMyInfo_of_fails env _ _ hfail]

/-- C10 (what the code does). When `ping` is called with an absent or empty range, no
local IP is cached and every run of `ifconfig` fails, each failure starts another
identity resolution: whatever number `n` of rounds is allowed, `findMyInfo` is entered
`n` times, the callback is never invoked, and the code is still running. -/
theorem pingDevices_identity_loop (env : Env) (range : Option (List JSString))
    (hrange : range = none ∨ range = some []) (hfail : ∀ k, findMyInfoFails env k)
    (n : Nat) (w : World) (hip : truthyStr w.myIP = false) :
    (pingDevices env n range record w).outOfFuel = true ∧
    findMyInfoCalls (pingDevices env n range record w).trace = findMyInfoCalls w.trace + n ∧
    callbacksOf (pingDevices env n range record w).trace = callbacksOf w.trace := by
  induction n generalizing w with
  | zero =>
    unfold pingDevices
    rcases hrange with rfl | rfl <;> simp [hip]
  | succ n ih =>
    rw [pingDevices_loop_step env n range record w hrange hip (hfail _)]
    obtain ⟨h1, h2, h3⟩ := ih
      { w with ifconfigRuns := w.ifconfigRuns + 1,
               trace := w.trace ++ [Event.findMyInfo, Event.exec "ifconfig".data] ++
                 findMyInfoLog env w.ifconfigRuns } hip
    refine ⟨h1, ?_, ?_⟩
    · rw [h2]
      have e1 : ∀ cmd, findMyInfoCalls [Event.findMyInfo, Event.exec cmd] = 1 := fun _ => rfl
      simp only [findMyInfoCalls_append, findMyInfoCalls_findMyInfoLog, e1]
      omega
    · rw [h3]
      have e1 : ∀ cmd, callbacksOf [Event.findMyInfo, Event.exec cmd] = [] := fun _ => rfl
      simp only [callbacksOf_append, callbacksOf_findMyInfoLog, e1, List.append_nil]

/-- Witness for C10: five rounds on a machine on which `ifconfig` cannot be run. -/
theorem pingDevices_identity_loop_witness :
    (pingDevices noIfconfigEnv 5 none record {}).outOfFuel = true ∧
    findMyInfoCalls (pingDevices noIfconfigEnv 5 none record {}).trace =
      findMyInfoCalls ({} : World).trace + 5 ∧
    callbacksOf (pingDevices noIfconfigEnv 5 none record {}).trace =
      callbacksOf ({} : World).trace :=
  pingDevices_identity_loop noIfconfigEnv none (Or.inl rfl) (fun _ => Or.inl rfl) 5 {} rfl

/-- C3 (the code on a system other than Linux). With no reference address, no cached
local IP and the retry flag clear, when `ifconfig` itself succeeds on a system other than
Linux, identity resolution fails by an uncaught `ReferenceError` (the undeclared `en0` of
index.js 103): `discover` enters `findMyInfo` once and the process dies; the callback of
`discover` is never invoked, so no failure is reported to it. -/
theorem discover_identity_crash (env : Env) (fuel : Nat) (refIP : Option JSString)
    (w : World) (href : truthyStr refIP = false) (hip : truthyStr w.myIP = false)
    (hretry : w.retry = false) (hos : env.osType ≠ OsType.Linux)
    (hok : (env.ifconfig w.ifconfigRuns).err = none) :
    discover env (fuel + 1) refIP record w =
      { w with ifconfigRuns := w.ifconfigRuns + 1,
               trace := w.trace ++
                 [Event.discover refIP, Event.findMyInfo, Event.exec "ifconfig".data,
                  Event.uncaught (JSError.referenceError "en0 is not defined")],
               crashed := true } ∧
    callbacksOf (discover env (fuel + 1) refIP record w).trace = callbacksOf w.trace ∧
    findMyInfoCalls (discover env (fuel + 1) refIP record w).trace =
      findMyInfoCalls w.trace + 1 := by
  have hrun : discover env (fuel + 1) refIP record w =
      { w with ifconfigRuns := w.ifconfigRuns + 1,
               trace := w.trace ++
                 [Event.discover refIP, Event.findMyInfo, Event.exec "ifconfig".data,
                  Event.uncaught (JSError.referenceError "en0 is not defined")],
               crashed := true } := by
    unfold discover
    simp only [href, Bool.false_eq_true, if_false]
    have h1 : truthyStr (w.emit (Event.discover refIP)).myIP = false := hip
    have h2 : (w.emit (Event.discover refIP)).retry = false := hretry
    have h3 : (env.ifconfig (w.emit (Event.discover refIP)).ifconfigRuns).err = none := hok
    simp only [h1, h2, Bool.not_false, if_true, Bool.false_eq_true, if_false]
    unfold findMyInfo
    simp only [h3]
    cases hosT : env.osType with
    | Linux => exact absurd hosT hos
    | WindowsNT => simp [World.emit, World.throwUncaught]
    | Darwin => simp [World.emit, World.throwUncaught]
  refine ⟨hrun, ?_, ?_⟩
  · rw [hrun]
    simp only [callbacksOf_append, List.append_assoc]
    have e1 : ∀ cmd e, callbacksOf
        [Event.discover refIP, Event.findMyInfo, Event.exec cmd, Event.uncaught e] = [] :=
      fun _ _ => rfl
    rw [e1, List.append_nil]
  · rw [hrun]
    simp only [findMyInfoCalls_append]
    have e1 : ∀ cmd e, findMyInfoCalls
        [Event.discover refIP, Event.findMyInfo, Event.exec cmd, Event.uncaught e] = 1 :=
      fun _ _ => rfl
    rw [e1]

/-- Witness for C3: a macOS machine on which `ifconfig` succeeds. -/
theorem discover_identity_crash_witness :
    truthyStr none = false ∧ truthyStr ({} : World).myIP = false ∧
    ({} : World).retry = false ∧ darwinEnv.osType ≠ OsType.Linux ∧
    (darwinEnv.ifconfig ({} : World).ifconfigRuns).err = none ∧
    (discover darwinEnv 1 none record {}).trace =
      [Event.discover none, Event.findMyInfo, Event.exec "ifconfig".data,
       Event.uncaught (JSError.referenceError "en0 is not defined")] ∧
    (discover darwinEnv 1 none record {}).crashed = true :=
  ⟨rfl, rfl, rfl, by decide, rfl,
   congrArg World.trace
     (discover_identity_crash darwinEnv 0 none {} rfl rfl rfl (by decide) rfl).1,
   congrArg World.crashed
     (discover_identity_crash darwinEnv 0 none {} rfl rfl rfl (by decide) rfl).1⟩

theorem digitVal_digitChar (m : Nat) (h : m < 10) : digitVal (Nat.digitChar m) = m := by
  interval_cases m <;> rfl

theorem decodeDigits_toDigitsCore (fuel : Nat) : ∀ (n : Nat) (ds : List Char), n < fuel →
    decodeDigits 0 (Nat.toDigitsCore 10 fuel n ds) = decodeDigits n ds := by
  induction fuel with
  | zero => intro n ds h; omega
  | succ f ih =>
    intro n ds h
    have hd : digitVal (Nat.digitChar (n % 10)) = n % 10 :=
      digitVal_digitChar _ (Nat.mod_lt _ (by decide))
    simp only [Nat.toDigitsCore]
    split
    · rename_i h0
      have hn : n % 10 = n := by omega
      rw [hn] at hd
      simp [decodeDigits, hd, hn]
    · rename_i h0
      rw [ih (n / 10) _ (by omega)]
      have hn : 10 * (n / 10) + n % 10 = n := Nat.div_add_mod n 10
      simp [decodeDigits, hd, hn]

theorem decodeDigits_numToString (n : Nat) : decodeDigits 0 (numToString n) = n := by
  unfold numToString Nat.toDigits
  rw [decodeDigits_toDigitsCore (n + 1) n [] (by omega)]
  rfl

theorem numToString_injective : Function.Injective numToString := by
  intro a b h
  have := congrArg (decodeDigits 0) h
  simpa [decodeDigits_numToString] using this

theorem rangeFrom_nodup (b : Bool) (s : JSString) : (rangeFrom b s).Nodup := by
  unfold rangeFrom
  split
  · apply List.Nodup.map _ (List.nodup_range _)
    intro i j h
    have := numToString_injective (List.append_cancel_left h)
    omega
  · apply List.Nodup.map _ (List.nodup_range _)
    intro i j h
    have := numToString_injective (List.append_cancel_left h)
    omega

theorem rangeFrom_ne_nil (b : Bool) (s : JSString) : rangeFrom b s ≠ [] := by
  intro h
  have := rangeFrom_length b s
  rw [h] at this
  cases b <;> simp at this

theorem spawnArps_eq (R : List JSString) : ∀ (w : World),
    spawnArps R w = { w with trace := w.trace ++ arpEvents R } := by
  induction R with
  | nil => intro w; simp [spawnArps, arpEvents]
  | cons ip ips ih =>
    intro w
    have := ih (w.emit (Event.exec ("arp ".data ++ ip)))
    simp only [spawnArps, List.foldl_cons] at this ⊢
    rw [this]
    simp [World.emit, arpEvents]

theorem arpLoop_complete (env : Env) (range : List JSString) (cb : Callback) :
    ∀ (order : List Nat) (hosts : List Host) (missing : List JSString) (checked : Nat)
      (w : World),
      order ≠ [] → (∀ i ∈ order, i < range.length) → (∀ i ∈ order, arpParses env i = true) →
      checked + order.length = range.length → w.crashed = false →
      arpLoop env range cb order hosts missing checked w =
        cb [JSVal.null, JSVal.hosts (hosts ++ arpHosts env w.myIP range order),
            JSVal.strs (missing ++ arpMissing env range order)] w := by
  intro order
  induction order with
  | nil => intro _ _ _ _ h; exact absurd rfl h
  | cons i rest ih =>
    intro hosts missing checked w _ hval hparse hlen hw
    have hi : i < range.length := hval i (List.mem_cons_self _ _)
    have hget : range[i]? = some range[i] := List.getElem?_eq_getElem hi
    have hp := hparse i (List.mem_cons_self _ _)
    simp only [List.length_cons] at hlen
    unfold arpLoop
    simp only [hw, Bool.false_eq_true, if_false, hget]
    by_cases hm : arpMissed (env.arp i) = true
    · simp only [hm, if_true]
      cases rest with
      | nil =>
        have hc : checked + 1 = range.length := by simpa using hlen
        simp only [hc, if_true, arpLoop]
        simp [arpHosts, arpHostAt, arpMissing, hm, hget]
      | cons j rest2 =>
        have hne : ¬ (checked + 1 = range.length) := by
          simp only [List.length_cons] at hlen; omega
        simp only [hne, if_false]
        rw [ih _ _ _ _ (by simp) (fun k hk => hval k (List.mem_cons_of_mem _ hk))
          (fun k hk => hparse k (List.mem_cons_of_mem _ hk))
          (by simp only [List.length_cons] at hlen ⊢; omega) hw]
        simp [arpHosts, arpHostAt, arpMissing, hm, hget, List.filter_cons]
    · have hsome : (parseMac env.osType (env.arp i).stdout).isSome = true := by
        simpa [arpParses, hm] using hp
      obtain ⟨mac, hmac⟩ := Option.isSome_iff_exists.mp hsome
      simp only [hm, Bool.false_eq_true, if_false, hmac]
      cases rest with
      | nil =>
        have hc : checked + 1 = range.length := by simpa using hlen
        simp only [hc, if_true, arpLoop]
        simp [arpHosts, arpHostAt, arpMissing, hm, hget, hmac]
      | cons j rest2 =>
        have hne : ¬ (checked + 1 = range.length) := by
          simp only [List.length_cons] at hlen; omega
        simp only [hne, if_false]
        rw [ih _ _ _ _ (by simp) (fun k hk => hval k (List.mem_cons_of_mem _ hk))
          (fun k hk => hparse k (List.mem_cons_of_mem _ hk))
          (by simp only [List.length_cons] at hlen ⊢; omega) hw]
        simp [arpHosts, arpHostAt, arpMissing, hm, hget, hmac, List.filter_cons]

theorem arpHosts_map_ip (env : Env) (myIP : Option JSString) (range : List JSString) :
    ∀ order : List Nat, (∀ i ∈ order, arpParses env i = true) →
      (arpHosts env myIP range order).map Host.ip =
        (order.filter (fun i => !arpMissed (env.arp i))).filterMap (fun i => range[i]?) := by
  intro order
  induction order with
  | nil => intro _; rfl
  | cons i rest ih =>
    intro hparse
    have ih2 := ih (fun k hk => hparse k (List.mem_cons_of_mem _ hk))
    have hp := hparse i (List.mem_cons_self _ _)
    unfold arpHosts at ih2 ⊢
    rw [List.filterMap_cons, List.filter_cons]
    by_cases hm : arpMissed (env.arp i) = true
    · cases hget : range[i]? <;> simp [arpHostAt, hm, hget, ih2]
    · have hsome : (parseMac env.osType (env.arp i).stdout).isSome = true := by
        simpa [arpParses, hm] using hp
      obtain ⟨mac, hmac⟩ := Option.isSome_iff_exists.mp hsome
      cases hget : range[i]? <;> simp [arpHostAt, hm, hget, hmac, ih2, mkHost]

theorem arpHosts_append_arpMissing_perm (env : Env) (myIP : Option JSString)
    (F : List JSString) (order : List Nat) (h : order.Perm (List.range F.length))
    (hparse : ∀ i ∈ order, arpParses env i = true) :
    ((arpHosts env myIP F order).map Host.ip ++ arpMissing env F order).Perm F := by
  rw [arpHosts_map_ip env myIP F order hparse]
  unfold arpMissing
  rw [← List.filterMap_append]
  have h1 : (List.filter (fun i => !arpMissed (env.arp i)) order ++
      List.filter (fun i => arpMissed (env.arp i)) order).Perm order := by
    have := List.filter_append_perm (fun i => !arpMissed (env.arp i)) order
    simpa using this
  have h2 := (h1.trans h).filterMap (fun i => F[i]?)
  rwa [filterMap_getElem?_range] at h2

/-- What `discover` does with a reference address, for any callback: it spawns the
probes of the whole range, then either reports the error of `arpDevices` on an empty
list (nothing answered) or spawns the ARP queries of the responsive addresses and hands
over the hosts. -/
theorem discover_ref_run (env : Env) (fuel : Nat) (ref : JSString) (cb : Callback)
    (w : World) (href : ref ≠ []) (hw : w.crashed = false)
    (hping : (env.pingOrder (discoverRange w ref).length).Perm
      (List.range (discoverRange w ref).length))
    (harp : (env.arpOrder (discoverFound env w ref).length).Perm
      (List.range (discoverFound env w ref).length))
    (hparse : ∀ i, arpParses env i = true) :
    discover env fuel (some ref) cb w =
      if discoverFound env w ref = [] then
        cb [JSVal.err (JSError.error "range must not be empty")]
          { w with retry := false,
                   trace := w.trace ++ [Event.discover (some ref)] ++
                     pingEvents env.osType w.timeout (discoverRange w ref) }
      else
        cb [JSVal.null, JSVal.hosts (discoverHosts env w ref)]
          { w with retry := false,
                   trace := w.trace ++ [Event.discover (some ref)] ++
                     pingEvents env.osType w.timeout (discoverRange w ref) ++
                     arpEvents (discoverFound env w ref) } := by
  obtain ⟨hval, hlen⟩ := perm_range_valid hping
  have hRne : discoverRange w ref ≠ [] := rangeFrom_ne_nil _ _
  have hone : env.pingOrder (discoverRange w ref).length ≠ [] := by
    intro h
    rw [h] at hlen
    exact hRne (List.length_eq_zero.mp hlen.symm)
  have htr : truthyStr (some ref) = true := by
    cases ref with
    | nil => exact absurd rfl href
    | cons c cs => rfl
  unfold discover
  simp only [htr, if_true]
  have hget : getFullRange (w.emit (Event.discover (some ref))) (some ref) =
      .ok (discoverRange w ref) := by
    rw [getFullRange_some _ _ href]; rfl
  rw [hget]
  simp only []
  generalize hR : discoverRange w ref = R at *
  cases R with
  | nil => exact absurd rfl hRne
  | cons a l =>
    unfold pingDevices
    simp only [if_true, Option.getD_some]
    rw [pingLoop_complete env (a :: l) _ _ [] [] 0 _ hone hval (by simpa using hlen)
      (by rw [spawnPings_eq]; exact hw)]
    rw [spawnPings_eq]
    have hF : pingFound env (a :: l) (env.pingOrder (a :: l).length) = discoverFound env w ref := by
      unfold discoverFound; rw [hR]
    simp only [List.nil_append, hF]
    unfold discoverPingCallback
    simp only [List.getD_cons_zero, JSVal.truthy, Bool.false_eq_true, if_false,
      List.getD_cons_succ, JSVal.asRange]
    generalize hFF : discoverFound env w ref = F at *
    cases F with
    | nil =>
      simp [arpDevices, discoverArpCallback, JSVal.truthy, World.emit]
    | cons b m =>
      obtain ⟨hval2, hlen2⟩ := perm_range_valid harp
      have hone2 : env.arpOrder (b :: m).length ≠ [] := by
        intro h
        rw [h] at hlen2
        simp at hlen2
      unfold arpDevices
      simp only []
      rw [arpLoop_complete env (b :: m) _ _ [] [] 0 _ hone2 hval2 (fun i _ => hparse i)
        (by simpa using hlen2) (by rw [spawnArps_eq]; exact hw)]
      rw [spawnArps_eq]
      have hH : arpHosts env w.myIP (b :: m) (env.arpOrder (b :: m).length) =
          discoverHosts env w ref := by
        unfold discoverHosts; rw [hFF]
      simp only [World.emit]
      rw [hH]
      simp [discoverArpCallback, JSVal.truthy]

set_option maxRecDepth 100000 in
theorem oneHost_found : discoverFound oneHostEnv {} "10.0.0.5".data = ["10.0.0.2".data] := by
  decide

theorem oneHost_hosts : discoverHosts oneHostEnv {} "10.0.0.5".data =
    [{ ip := "10.0.0.2".data, mac := some "11:22:33:44:55:66".data }] := by
  unfold discoverHosts
  rw [oneHost_found]
  decide

theorem oneHost_parses : ∀ i, arpParses oneHostEnv i = true := fun _ => rfl

theorem silent_parses : ∀ i, arpParses silentEnv i = true := fun _ => rfl

set_option maxRecDepth 100000 in
theorem silent_found : discoverFound silentEnv {} "10.0.0.5".data = [] := by
  decide

theorem oneHost_range_mem : "10.0.0.3".data ∈ discoverRange {} "10.0.0.5".data := by
  have h : (discoverRange {} "10.0.0.5".data)[1]? = some "10.0.0.3".data := by
    unfold discoverRange rangeFrom
    simp only [Bool.false_eq_true, if_false]
    rw [List.getElem?_map, List.getElem?_range (by decide)]
    decide
  exact List.mem_iff_getElem?.mpr ⟨1, h⟩

theorem listOrder_ping_perm (env : Env) (h : env.pingOrder = List.range) (n : Nat) :
    (env.pingOrder n).Perm (List.range n) := by
  rw [h]

theorem listOrder_arp_perm (env : Env) (h : env.arpOrder = List.range) (n : Nat) :
    (env.arpOrder n).Perm (List.range n) := by
  rw [h]

theorem ref_ne_nil : "10.0.0.5".data ≠ [] := by decide

theorem oneHost_found_ne : discoverFound oneHostEnv {} "10.0.0.5".data ≠ [] := by
  rw [oneHost_found]; decide

theorem discover_ref_callbacks (env : Env) (fuel : Nat) (ref : JSString) (w : World)
    (href : ref ≠ []) (hw : w.crashed = false)
    (hping : (env.pingOrder (discoverRange w ref).length).Perm
      (List.range (discoverRange w ref).length))
    (harp : (env.arpOrder (discoverFound env w ref).length).Perm
      (List.range (discoverFound env w ref).length))
    (hparse : ∀ i, arpParses env i = true) :
    callbacksOf (discover env fuel (some ref) record w).trace =
      callbacksOf w.trace ++
        [if discoverFound env w ref = [] then
           [JSVal.err (JSError.error "range must not be empty")]
         else [JSVal.null, JSVal.hosts (discoverHosts env w ref)]] := by
  rw [discover_ref_run env fuel ref record w href hw hping harp hparse]
  split
  · simp only [record, World.emit, callbacksOf_append, callbacksOf_pingEvents,
      List.append_nil, List.append_assoc]
    rfl
  · simp only [record, World.emit, callbacksOf_append, callbacksOf_pingEvents,
      callbacksOf_arpEvents, List.append_nil, List.append_assoc]
    rfl

/-- C6 (as the code behaves). With a reference address, parsable ARP output and every
spawned command completing, `discover` invokes its callback exactly once. If at least one
address of the range answers ping, the call succeeds with the hosts that resolved (the
addresses that did not answer or did not resolve are simply absent from the list, which
may be empty). If no address answers ping, the call fails with the error
`range must not be empty` of `arpDevices`. -/
theorem discover_unreachable (env : Env) (fuel : Nat) (ref : JSString) (w : World)
    (href : ref ≠ []) (hw : w.crashed = false)
    (hping : (env.pingOrder (discoverRange w ref).length).Perm
      (List.range (discoverRange w ref).length))
    (harp : (env.arpOrder (discoverFound env w ref).length).Perm
      (List.range (discoverFound env w ref).length))
    (hparse : ∀ i, arpParses env i = true) :
    callbacksOf (discover env fuel (some ref) record w).trace =
      callbacksOf w.trace ++
        [if discoverFound env w ref = [] then
           [JSVal.err (JSError.error "range must not be empty")]
         else [JSVal.null, JSVal.hosts (discoverHosts env w ref)]] :=
  discover_ref_callbacks env fuel ref w href hw hping harp hparse

/-- Witness for C6: a network on which one address answers. -/
theorem discover_unreachable_witness :
    "10.0.0.5".data ≠ [] ∧ ({} : World).crashed = false ∧
    callbacksOf (discover oneHostEnv 0 (some "10.0.0.5".data) record {}).trace =
      callbacksOf ({} : World).trace ++
        [if discoverFound oneHostEnv {} "10.0.0.5".data = [] then
           [JSVal.err (JSError.error "range must not be empty")]
         else [JSVal.null, JSVal.hosts (discoverHosts oneHostEnv {} "10.0.0.5".data)]] :=
  ⟨ref_ne_nil, rfl,
   discover_unreachable oneHostEnv 0 "10.0.0.5".data {} ref_ne_nil rfl
     (listOrder_ping_perm oneHostEnv rfl _) (listOrder_arp_perm oneHostEnv rfl _)
     oneHost_parses⟩

/-- C6 fails as stated: on a network where no address of the range answers ping,
`discover` with the reference address `10.0.0.5` completes with an error, not with an
empty host list. -/
theorem discover_unreachable_counterexample :
    callbacksOf (discover silentEnv 0 (some "10.0.0.5".data) record {}).trace =
      [[JSVal.err (JSError.error "range must not be empty")]] := by
  rw [discover_ref_callbacks silentEnv 0 "10.0.0.5".data {} ref_ne_nil rfl
    (listOrder_ping_perm silentEnv rfl _) (listOrder_arp_perm silentEnv rfl _) silent_parses]
  rw [silent_found]
  rfl

/-- C5 (as the code behaves). With a reference address, parsable ARP output, every
spawned command completing and at least one address answering ping, `discover` succeeds
and hands its callback the host list alone: no missing list is passed. The host ips are
pairwise distinct; together with the addresses dropped at the ARP stage and at the ping
stage they are a permutation of the range built from the reference address, and no host
ip is among the dropped addresses. -/
theorem discover_hosts_within_range (env : Env) (fuel : Nat) (ref : JSString) (w : World)
    (href : ref ≠ []) (hw : w.crashed = false)
    (hping : (env.pingOrder (discoverRange w ref).length).Perm
      (List.range (discoverRange w ref).length))
    (harp : (env.arpOrder (discoverFound env w ref).length).Perm
      (List.range (discoverFound env w ref).length))
    (hparse : ∀ i, arpParses env i = true)
    (hfound : discoverFound env w ref ≠ []) :
    callbacksOf (discover env fuel (some ref) record w).trace =
      callbacksOf w.trace ++ [[JSVal.null, JSVal.hosts (discoverHosts env w ref)]] ∧
    ((discoverHosts env w ref).map Host.ip ++
      (discoverArpMissing env w ref ++ discoverPingMissing env w ref)).Perm
        (discoverRange w ref) ∧
    ((discoverHosts env w ref).map Host.ip).Nodup ∧
    (∀ a ∈ (discoverHosts env w ref).map Host.ip,
      a ∉ discoverArpMissing env w ref ++ discoverPingMissing env w ref) := by
  have hperm : ((discoverHosts env w ref).map Host.ip ++
      (discoverArpMissing env w ref ++ discoverPingMissing env w ref)).Perm
        (discoverRange w ref) := by
    have hA := arpHosts_append_arpMissing_perm env w.myIP (discoverFound env w ref) _ harp
      (fun i _ => hparse i)
    have hP := pingFound_append_pingMissing_perm env (discoverRange w ref) _ hping
    rw [← List.append_assoc]
    exact (hA.append_right _).trans hP
  have hnd := (hperm.nodup_iff).mpr (rangeFrom_nodup _ _)
  obtain ⟨h1, _, h3⟩ := List.nodup_append.mp hnd
  refine ⟨?_, hperm, h1, fun a ha hb => h3 ha hb⟩
  rw [discover_ref_callbacks env fuel ref w href hw hping harp hparse]
  simp only [hfound, if_false]

/-- Witness for C5: a network on which one address answers and resolves. -/
theorem discover_hosts_within_range_witness :
    "10.0.0.5".data ≠ [] ∧ discoverFound oneHostEnv {} "10.0.0.5".data ≠ [] ∧
    (((discoverHosts oneHostEnv {} "10.0.0.5".data).map Host.ip ++
      (discoverArpMissing oneHostEnv {} "10.0.0.5".data ++
        discoverPingMissing oneHostEnv {} "10.0.0.5".data)).Perm
        (discoverRange {} "10.0.0.5".data)) :=
  ⟨ref_ne_nil, oneHost_found_ne,
   (discover_hosts_within_range oneHostEnv 0 "10.0.0.5".data {} ref_ne_nil rfl
     (listOrder_ping_perm oneHostEnv rfl _) (listOrder_arp_perm oneHostEnv rfl _)
     oneHost_parses oneHost_found_ne).2.1⟩

/-- C5 fails as stated: with the reference address `10.0.0.5`, on a network where only
`10.0.0.2` answers, the successful `discover` hands its callback two arguments, `null`
and the host list; there is no missing list, and the address `10.0.0.3` of the range is
in nothing that is delivered. -/
theorem discover_hosts_within_range_counterexample :
    callbacksOf (discover oneHostEnv 0 (some "10.0.0.5".data) record {}).trace =
      [[JSVal.null,
        JSVal.hosts [{ ip := "10.0.0.2".data, mac := some "11:22:33:44:55:66".data }]]] ∧
    "10.0.0.3".data ∈ discoverRange {} "10.0.0.5".data := by
  refine ⟨?_, oneHost_range_mem⟩
  rw [discover_ref_callbacks oneHostEnv 0 "10.0.0.5".data {} ref_ne_nil rfl
    (listOrder_ping_perm oneHostEnv rfl _) (listOrder_arp_perm oneHostEnv rfl _)
    oneHost_parses]
  rw [oneHost_hosts, oneHost_found]
  rfl

/-- What `byIpAddress` does once its input passed the check and the reference address
is known: it runs `discover` and records either the error of discovery or the result
computed from the discovered hosts. -/
theorem byIpAddress_run (env : Env) (fuel : Nat) (input : SearchInput)
    (refIP : Option JSString) (ips : List JSString) (ref : JSString) (w : World)
    (hin : normalizeIpArray input = .ok ips)
    (href : (if truthyStr refIP then refIP else ips[0]?) = some ref) (hne : ref ≠ [])
    (hw : w.crashed = false)
    (hping : (env.pingOrder (discoverRange w ref).length).Perm
      (List.range (discoverRange w ref).length))
    (harp : (env.arpOrder (discoverFound env w ref).length).Perm
      (List.range (discoverFound env w ref).length))
    (hparse : ∀ i, arpParses env i = true) :
    Except.map (fun W => callbacksOf W.trace) (byIpAddress env fuel input refIP record w) =
      .ok (callbacksOf w.trace ++
        [if discoverFound env w ref = [] then
           [JSVal.err (JSError.error "range must not be empty")]
         else byIpAddressResult ips (discoverHosts env w ref)]) := by
  unfold byIpAddress
  rw [hin]
  simp only [href]
  rw [discover_ref_run env fuel ref _ w hne hw hping harp hparse]
  simp only [Except.map]
  congr 1
  split
  · simp only [List.getD_cons_zero, JSVal.truthy, if_true, record, World.emit,
      callbacksOf_append, callbacksOf_pingEvents, List.append_nil, List.append_assoc]
    rfl
  · simp only [List.getD_cons_zero, List.getD_cons_succ, JSVal.truthy, Bool.false_eq_true,
      if_false, record, World.emit, callbacksOf_append, callbacksOf_pingEvents,
      callbacksOf_arpEvents, List.append_nil, List.append_assoc]
    rfl

/-- What `byMacAddress` does once its input passed the check, with a reference address:
it runs `discover` and records the error of discovery or the result computed from the
discovered hosts; an exception raised while filtering is uncaught and no callback is
invoked. -/
theorem byMacAddress_run (env : Env) (fuel : Nat) (input : SearchInput)
    (macs : List JSString) (ref : JSString) (w : World)
    (hin : normalizeMacArray input = .ok macs) (hne : ref ≠ [])
    (hw : w.crashed = false)
    (hping : (env.pingOrder (discoverRange w ref).length).Perm
      (List.range (discoverRange w ref).length))
    (harp : (env.arpOrder (discoverFound env w ref).length).Perm
      (List.range (discoverFound env w ref).length))
    (hparse : ∀ i, arpParses env i = true) :
    Except.map (fun W => (W.crashed, callbacksOf W.trace))
        (byMacAddress env fuel input (some ref) record w) =
      .ok (if discoverFound env w ref = [] then
             (false, callbacksOf w.trace ++ [[JSVal.err (JSError.error "range must not be empty")]])
           else
             match byMacAddressResult macs (discoverHosts env w ref) with
             | .error _ => (true, callbacksOf w.trace)
             | .ok res => (false, callbacksOf w.trace ++ [res])) := by
  unfold byMacAddress
  rw [hin]
  simp only []
  rw [discover_ref_run env fuel ref _ w hne hw hping harp hparse]
  simp only [Except.map]
  congr 1
  split
  · simp only [List.getD_cons_zero, JSVal.truthy, if_true, record, World.emit,
      callbacksOf_append, callbacksOf_pingEvents, List.append_nil, List.append_assoc, hw]
    rfl
  · simp only [List.getD_cons_zero, List.getD_cons_succ, JSVal.truthy, Bool.false_eq_true,
      if_false]
    cases byMacAddressResult macs (discoverHosts env w ref) with
    | error e =>
      have e1 : callbacksOf [Event.discover (some ref)] = [] := rfl
      have e2 : callbacksOf [Event.uncaught e] = [] := rfl
      simp only [World.throwUncaught, callbacksOf_append, callbacksOf_pingEvents,
        callbacksOf_arpEvents, List.append_nil, List.append_assoc, e1, e2]
    | ok res =>
      simp only [record, World.emit, callbacksOf_append, callbacksOf_pingEvents,
        callbacksOf_arpEvents, List.append_nil, List.append_assoc, hw]
      rfl

set_option maxRecDepth 100000 in
theorem fifty_found : discoverFound fiftyEnv {} "10.0.0.5".data = ["10.0.0.50".data] := by
  decide

theorem fifty_hosts : discoverHosts fiftyEnv {} "10.0.0.5".data =
    [{ ip := "10.0.0.50".data, mac := some "aa:bb:cc:dd:ee:ff".data }] := by
  unfold discoverHosts
  rw [fifty_found]
  decide

theorem fifty_parses : ∀ i, arpParses fiftyEnv i = true := fun _ => rfl

set_option maxRecDepth 100000 in
theorem short_found : discoverFound shortArpEnv {} "10.0.0.5".data = ["10.0.0.2".data] := by
  decide

theorem short_hosts : discoverHosts shortArpEnv {} "10.0.0.5".data =
    [{ ip := "10.0.0.2".data, mac := none }] := by
  unfold discoverHosts
  rw [short_found]
  decide

theorem short_parses : ∀ i, arpParses shortArpEnv i = true := fun _ => rfl

/-- C7 (as the code behaves). `byIpAddress` with a valid input runs discovery from the
reference address (the first requested ip when none is given) and invokes its callback
once: with the error when no address answers ping, otherwise with the matched and
unmatched lists. When no discovered host has the requested `ip`, the matched list holds
no host with that ip, and the unmatched list holds the requested string exactly when it
occurs nowhere in the JSON text of the discovered hosts. A single string is searched as
the one-element list; it then gives no match, and is the only unmatched input unless the
JSON text of the hosts contains it. -/
theorem byIpAddress_unmatched (env : Env) (fuel : Nat) (input : SearchInput)
    (refIP : Option JSString) (ips : List JSString) (ref : JSString) (w : World)
    (ip : JSString)
    (hin : normalizeIpArray input = .ok ips)
    (href : (if truthyStr refIP then refIP else ips[0]?) = some ref) (hne : ref ≠ [])
    (hw : w.crashed = false)
    (hping : (env.pingOrder (discoverRange w ref).length).Perm
      (List.range (discoverRange w ref).length))
    (harp : (env.arpOrder (discoverFound env w ref).length).Perm
      (List.range (discoverFound env w ref).length))
    (hparse : ∀ i, arpParses env i = true)
    (hip : ip ∈ ips) (hno : ∀ h ∈ discoverHosts env w ref, h.ip ≠ ip) :
    Except.map (fun W => callbacksOf W.trace) (byIpAddress env fuel input refIP record w) =
      .ok (callbacksOf w.trace ++
        [if discoverFound env w ref = [] then
           [JSVal.err (JSError.error "range must not be empty")]
         else byIpAddressResult ips (discoverHosts env w ref)]) ∧
    (∃ matched unmatched,
      byIpAddressResult ips (discoverHosts env w ref) =
        [JSVal.null, JSVal.hosts matched, JSVal.strs unmatched] ∧
      (∀ h ∈ matched, h.ip ≠ ip) ∧
      (ip ∈ unmatched ↔ ¬ ip <:+: stringifyHosts (discoverHosts env w ref))) ∧
    normalizeIpArray (SearchInput.str ip) = .ok [ip] ∧
    byIpAddressResult [ip] (discoverHosts env w ref) =
      [JSVal.null, JSVal.hosts [],
       JSVal.strs (if ip <:+: stringifyHosts (discoverHosts env w ref) then [] else [ip])] := by
  obtain ⟨matched, unmatched, h1, h2, h3, h4⟩ :=
    byIpAddressResult_unmatched ips (discoverHosts env w ref) ip hip hno
  exact ⟨byIpAddress_run env fuel input refIP ips ref w hin href hne hw hping harp hparse,
    ⟨matched, unmatched, h1, h2, h3⟩, rfl, h4⟩

/-- Witness for C7: the request `10.0.0.5` on a network where only `10.0.0.2` is found. -/
theorem byIpAddress_unmatched_witness :
    normalizeIpArray (SearchInput.str "10.0.0.5".data) = .ok ["10.0.0.5".data] ∧
    "10.0.0.5".data ∈ ["10.0.0.5".data] ∧
    (∀ h ∈ discoverHosts oneHostEnv {} "10.0.0.5".data, h.ip ≠ "10.0.0.5".data) ∧
    Except.map (fun W => callbacksOf W.trace)
        (byIpAddress oneHostEnv 0 (SearchInput.str "10.0.0.5".data) none record {}) =
      .ok [[JSVal.null, JSVal.hosts [], JSVal.strs ["10.0.0.5".data]]] :=
  ⟨rfl, by decide, by rw [oneHost_hosts]; decide,
   (byIpAddress_unmatched oneHostEnv 0 (SearchInput.str "10.0.0.5".data) none
      ["10.0.0.5".data] "10.0.0.5".data {} "10.0.0.5".data rfl rfl ref_ne_nil rfl
      (listOrder_ping_perm oneHostEnv rfl _) (listOrder_arp_perm oneHostEnv rfl _)
      oneHost_parses (by decide) (by rw [oneHost_hosts]; decide)).1.trans
     (by rw [oneHost_found, oneHost_hosts]; rfl)⟩

/-- C7 fails as stated: on a network where only `10.0.0.50` is found, no discovered
host has the ip `10.0.0.5`, yet `byIpAddress` called with `10.0.0.5` hands its callback
an empty matched list and an empty unmatched list, because the text `10.0.0.5` occurs
inside the serialized ip `10.0.0.50`. -/
theorem byIpAddress_unmatched_counterexample :
    discoverHosts fiftyEnv {} "10.0.0.5".data =
      [{ ip := "10.0.0.50".data, mac := some "aa:bb:cc:dd:ee:ff".data }] ∧
    (∀ h ∈ discoverHosts fiftyEnv {} "10.0.0.5".data, h.ip ≠ "10.0.0.5".data) ∧
    Except.map (fun W => callbacksOf W.trace)
        (byIpAddress fiftyEnv 0 (SearchInput.str "10.0.0.5".data) none record {}) =
      .ok [[JSVal.null, JSVal.hosts [], JSVal.strs []]] := by
  refine ⟨fifty_hosts, by rw [fifty_hosts]; decide, ?_⟩
  rw [byIpAddress_run fiftyEnv 0 (SearchInput.str "10.0.0.5".data) none
    ["10.0.0.5".data] "10.0.0.5".data {} rfl rfl ref_ne_nil rfl
    (listOrder_ping_perm fiftyEnv rfl _) (listOrder_arp_perm fiftyEnv rfl _) fifty_parses]
  rw [fifty_found, fifty_hosts]
  rfl

/-- C8 (the code on a host without a MAC). On a macOS network where `10.0.0.2` answers
ping and `arp` prints, without failing, fewer than four fields for it, discovery from
`10.0.0.5` succeeds and delivers that host with `mac` undefined. `byMacAddress` called
with the token `AA:BB:CC` then raises an uncaught `TypeError` in its filter: the process
dies and the callback is never invoked, so no matched list is produced. -/
theorem byMacAddress_undefined_mac :
    callbacksOf (discover shortArpEnv 0 (some "10.0.0.5".data) record {}).trace =
      [[JSVal.null, JSVal.hosts [{ ip := "10.0.0.2".data, mac := none }]]] ∧
    byMacAddressResult ["AA:BB:CC".data] [{ ip := "10.0.0.2".data, mac := none }] =
      .error (JSError.typeError "Cannot read property indexOf of undefined") ∧
    Except.map (fun W => (W.crashed, callbacksOf W.trace))
        (byMacAddress shortArpEnv 0 (SearchInput.str "AA:BB:CC".data) (some "10.0.0.5".data)
          record {}) =
      .ok (true, []) := by
  refine ⟨?_, rfl, ?_⟩
  · rw [discover_ref_callbacks shortArpEnv 0 "10.0.0.5".data {} ref_ne_nil rfl
      (listOrder_ping_perm shortArpEnv rfl _) (listOrder_arp_perm shortArpEnv rfl _)
      short_parses]
    rw [short_hosts, short_found]
    rfl
  · rw [byMacAddress_run shortArpEnv 0 (SearchInput.str "AA:BB:CC".data) ["AA:BB:CC".data]
      "10.0.0.5".data {} rfl ref_ne_nil rfl
      (listOrder_ping_perm shortArpEnv rfl _) (listOrder_arp_perm shortArpEnv rfl _)
      short_parses]
    rw [short_found, short_hosts]
    rfl

end Arpping
